import Mathlib

/-!
Verification of the dynamic priority scheduler and ETA estimator of the
mumbaihacks clinic-queue repository.

The development shallowly embeds the Python modules
`tools/priority_queue_manager.py` and `tools/astar_eta_calculator.py`:

* Python floats are modelled as exact rationals, `round(x, 2)` as rounding
  half-to-even on rationals (`round2`);
* CPython's `heapq` module (`heappush`, `heappop`, `heapify` and the private
  sift routines, which the scheduler uses verbatim) is reimplemented
  step-for-step over `List`;
* the `PriorityQueueManager` object becomes a state record plus pure
  state-transition functions, MongoDB persistence calls (external
  collaborator, spec section 6) are dropped, and CPython object aliasing
  between `patient_map` and `main_queue` is modelled by structural equality
  of nodes (exact whenever token numbers are unique, which the enqueue
  callers guarantee);
* the haversine / A* heuristic arithmetic, which is transcendental, is
  modelled over the real numbers.
-/

/-- Rounding half-to-even to an integer, the semantics of Python's built-in
`round` on the exact rational values that arise here. -/
def roundHalfEven (x : ℚ) : ℤ :=
  if x - ⌊x⌋ < 1/2 then ⌊x⌋
  else if 1/2 < x - ⌊x⌋ then ⌊x⌋ + 1
  else if ⌊x⌋ % 2 = 0 then ⌊x⌋ else ⌊x⌋ + 1

/-- Python's `round(x, 2)`, as used by `calculate_priority_score`. -/
def round2 (x : ℚ) : ℚ := (roundHalfEven (x * 100) : ℚ) / 100

theorem floor_le_roundHalfEven (x : ℚ) : ⌊x⌋ ≤ roundHalfEven x := by
  unfold roundHalfEven
  split_ifs <;> omega

theorem roundHalfEven_le_floor_add_one (x : ℚ) : roundHalfEven x ≤ ⌊x⌋ + 1 := by
  unfold roundHalfEven
  split_ifs <;> omega

theorem roundHalfEven_mono {x y : ℚ} (h : x ≤ y) : roundHalfEven x ≤ roundHalfEven y := by
  rcases lt_or_eq_of_le (Int.floor_mono h) with hf | hf
  · calc roundHalfEven x ≤ ⌊x⌋ + 1 := roundHalfEven_le_floor_add_one x
    _ ≤ ⌊y⌋ := by omega
    _ ≤ roundHalfEven y := floor_le_roundHalfEven y
  · unfold roundHalfEven
    rw [hf]
    have hxy : x - (⌊y⌋ : ℚ) ≤ y - (⌊y⌋ : ℚ) := by linarith
    split_ifs <;> first
      | rfl
      | omega
      | (exfalso; linarith)

theorem roundHalfEven_sub_even (x : ℚ) (m : ℤ) (hm : m % 2 = 0) :
    roundHalfEven (x - m) = roundHalfEven x - m := by
  unfold roundHalfEven
  have hfl : ⌊x - (m : ℚ)⌋ = ⌊x⌋ - m := Int.floor_sub_int x m
  rw [hfl]
  have : x - (m : ℚ) - ((⌊x⌋ - m : ℤ) : ℚ) = x - (⌊x⌋ : ℚ) := by
    push_cast
    ring
  rw [this]
  split_ifs <;> omega

theorem round2_mono {x y : ℚ} (h : x ≤ y) : round2 x ≤ round2 y := by
  unfold round2
  have := roundHalfEven_mono (show x * 100 ≤ y * 100 by linarith)
  have hc : ((roundHalfEven (x * 100) : ℤ) : ℚ) ≤ ((roundHalfEven (y * 100) : ℤ) : ℚ) := by
    exact_mod_cast this
  linarith

theorem round2_sub_int (x : ℚ) (n : ℤ) : round2 (x - n) = round2 x - n := by
  unfold round2
  have h1 : (x - (n : ℚ)) * 100 = x * 100 - ((100 * n : ℤ) : ℚ) := by
    push_cast
    ring
  rw [h1, roundHalfEven_sub_even _ (100 * n) (by omega)]
  push_cast
  ring

/-!
### The `heapq` module

A faithful model of CPython's `heapq`: `_siftdown` (bubble towards the
root), `_siftup` (sink to a leaf, then `_siftdown` back), `heappush`,
`heappop` and `heapify`.  Elements are compared through a rational key
`k`, which matches the scheduler's `PatientNode`: `@dataclass(order=True)`
with `priority_score` as the only comparable field.
-/

namespace Heapq

variable {α : Type}

/-- Index of the parent of heap slot `j` (Python `(pos - 1) >> 1`). -/
def parentIdx (j : ℕ) : ℕ := (j - 1) / 2

/-- The key stored at index `i`, or `0` out of range (all uses are in
range; the default only keeps the function total). -/
def kAt (k : α → ℚ) (l : List α) (i : ℕ) : ℚ :=
  match l[i]? with
  | some a => k a
  | none => 0

/-- CPython `_siftdown(heap, startpos, pos)` with `newitem = heap[pos]`
made explicit: bubble `newitem` up from `pos` while it compares below its
parent, then store it. -/
def siftdown (k : α → ℚ) (startpos : ℕ) (newitem : α) (pos : ℕ) (l : List α) : List α :=
  if startpos < pos then
    match l[parentIdx pos]? with
    | some parent =>
      if k newitem < k parent then
        siftdown k startpos newitem (parentIdx pos) (l.set pos parent)
      else
        l.set pos newitem
    | none => l.set pos newitem
  else
    l.set pos newitem
termination_by pos
decreasing_by simp [parentIdx]; omega

/-- CPython `heappush`: append, then sift the new leaf towards the root. -/
def heappush (k : α → ℚ) (l : List α) (item : α) : List α :=
  siftdown k 0 item l.length (l ++ [item])

/-- The while-loop of CPython `_siftup`: move the smaller child up into
the hole until the hole reaches a position with no left child; returns
the new list together with the final hole position. -/
def siftupLoop (k : α → ℚ) (l : List α) (pos : ℕ) : List α × ℕ :=
  if hc : 2 * pos + 1 < l.length then
    if hr : 2 * pos + 2 < l.length then
      if ¬ kAt k l (2 * pos + 1) < kAt k l (2 * pos + 2) then
        siftupLoop k (l.set pos (l.get ⟨2 * pos + 2, hr⟩)) (2 * pos + 2)
      else
        siftupLoop k (l.set pos (l.get ⟨2 * pos + 1, hc⟩)) (2 * pos + 1)
    else
      siftupLoop k (l.set pos (l.get ⟨2 * pos + 1, hc⟩)) (2 * pos + 1)
  else
    (l, pos)
termination_by l.length - pos
decreasing_by all_goals simp; omega

/-- CPython `_siftup(heap, pos)`: save `heap[pos]`, sink the hole to a
leaf position, put the saved item there and sift it back towards `pos`. -/
def siftup (k : α → ℚ) (l : List α) (pos : ℕ) : List α :=
  match l[pos]? with
  | some newitem =>
    let r := siftupLoop k l pos
    siftdown k pos newitem r.2 (r.1.set r.2 newitem)
  | none => l

/-- CPython `heappop`: pop the last element; if the heap is still
non-empty, return the root, move the last element into the root slot and
sift it up.  The empty case (an `IndexError` in Python) returns `none`;
the scheduler only pops queues it has checked to be non-empty. -/
def heappop (k : α → ℚ) (l : List α) : Option (α × List α) :=
  match l with
  | [] => none
  | x :: rest =>
    let lastelt := (x :: rest).getLast (by simp)
    match (x :: rest).dropLast with
    | [] => some (lastelt, [])
    | y :: heap => some (y, siftup k ((y :: heap).set 0 lastelt) 0)

/-- The loop of CPython `heapify`: `_siftup` at positions
`n // 2 - 1, …, 0`. -/
def heapifyAux (k : α → ℚ) : ℕ → List α → List α
  | 0, l => l
  | i + 1, l => heapifyAux k i (siftup k l i)

/-- CPython `heapify`. -/
def heapify (k : α → ℚ) (l : List α) : List α := heapifyAux k (l.length / 2) l

/-!
#### Correctness of the `heapq` model

`heapInvGE k l s` is the binary-heap ordering restricted to the edges whose
parent index is at least `s`; `heapInvGE k l 0` is the full min-heap
invariant.  `onChain s h` says `s` lies on the parent chain of `h`, the
shape of the hole path traced by the sift routines.
-/

/-- Min-heap ordering on every parent-child edge whose parent is `≥ s`. -/
def heapInvGE (k : α → ℚ) (l : List α) (s : ℕ) : Prop :=
  ∀ j, j < l.length → 0 < j → s ≤ parentIdx j → kAt k l (parentIdx j) ≤ kAt k l j

/-- The full min-heap invariant. -/
def heapInv (k : α → ℚ) (l : List α) : Prop := heapInvGE k l 0

theorem parentIdx_lt {j : ℕ} (hj : 0 < j) : parentIdx j < j := by
  simp [parentIdx]
  omega

theorem parentIdx_child_gt {i j : ℕ} (hj : 0 < j) (hp : parentIdx j = i) : i < j :=
  hp ▸ parentIdx_lt hj

/-- `s` is an ancestor of `h` in the implicit binary tree (or `h` itself):
the hole moved by the sift routines always sits on the parent chain of the
start position. -/
def onChain (s : ℕ) (h : ℕ) : Prop :=
  if _hlt : s < h then onChain s (parentIdx h) else s = h
termination_by h
decreasing_by simp [parentIdx]; omega

theorem onChain_self (s : ℕ) : onChain s s := by
  unfold onChain
  simp

theorem onChain_le {s h : ℕ} (hc : onChain s h) : s ≤ h := by
  unfold onChain at hc
  split at hc
  · omega
  · omega

theorem onChain_parent {s h : ℕ} (hc : onChain s h) (hne : s < h) : onChain s (parentIdx h) := by
  unfold onChain at hc
  rw [dif_pos hne] at hc
  exact hc

theorem onChain_child {s h c : ℕ} (hc : onChain s h) (hch : parentIdx c = h) (hlt : h < c) :
    onChain s c := by
  have hsc : s < c := lt_of_le_of_lt (onChain_le hc) hlt
  unfold onChain
  rw [dif_pos hsc, hch]
  exact hc

theorem onChain_zero (h : ℕ) : onChain 0 h := by
  induction h using Nat.strong_induction_on with
  | _ h ih =>
    unfold onChain
    split
    · next h0 => exact ih (parentIdx h) (parentIdx_lt h0)
    · next h0 => omega

theorem kAt_set_self {k : α → ℚ} {l : List α} {i : ℕ} (h : i < l.length) (x : α) :
    kAt k (l.set i x) i = k x := by
  simp [kAt, List.getElem?_set_self h]

theorem kAt_set_ne {k : α → ℚ} {l : List α} {i j : ℕ} (h : i ≠ j) (x : α) :
    kAt k (l.set i x) j = kAt k l j := by
  simp [kAt, List.getElem?_set_ne h]

theorem kAt_append_left {k : α → ℚ} {l₁ l₂ : List α} {i : ℕ} (h : i < l₁.length) :
    kAt k (l₁ ++ l₂) i = kAt k l₁ i := by
  simp [kAt, List.getElem?_append_left h]

theorem kAt_dropLast {k : α → ℚ} {l : List α} {i : ℕ} (h : i < l.dropLast.length) :
    kAt k l.dropLast i = kAt k l i := by
  have h' : i < l.length - 1 := by
    have := List.length_dropLast l
    omega
  have h2 : i < l.length := by omega
  simp [kAt, List.getElem?_dropLast, h', List.getElem?_eq_getElem h2]

theorem kAt_of_getElem? {k : α → ℚ} {l : List α} {i : ℕ} {a : α} (h : l[i]? = some a) :
    kAt k l i = k a := by
  simp [kAt, h]

theorem mem_of_kAt {k : α → ℚ} {l : List α} {b : α} (hb : b ∈ l) :
    ∃ j, j < l.length ∧ kAt k l j = k b := by
  rcases List.mem_iff_getElem.1 hb with ⟨j, hj, hget⟩
  exact ⟨j, hj, by simp [kAt, List.getElem?_eq_getElem hj, hget]⟩

/-- Overwriting slot `i` trades the old element for the new one, as
multisets. -/
theorem mset_set {l : List α} {i : ℕ} (h : i < l.length) (x : α) :
    (↑(l.set i x) : Multiset α) + {l[i]} = (↑l : Multiset α) + {x} := by
  rw [List.set_eq_take_cons_drop x h]
  conv_rhs => rw [← List.take_append_drop i l, List.drop_eq_getElem_cons h]
  rw [← Multiset.coe_add, ← Multiset.coe_add, ← Multiset.cons_coe, ← Multiset.cons_coe,
      ← Multiset.singleton_add, ← Multiset.singleton_add]
  abel

/-- Index arithmetic: the children of slot `i` are `2 i + 1` and `2 i + 2`. -/
theorem eq_child {i j : ℕ} (hj : 0 < j) (hp : parentIdx j = i) : j = 2 * i + 1 ∨ j = 2 * i + 2 := by
  simp [parentIdx] at hp
  omega

theorem parentIdx_left (p : ℕ) : parentIdx (2 * p + 1) = p := by
  simp only [parentIdx]
  omega

theorem parentIdx_right (p : ℕ) : parentIdx (2 * p + 2) = p := by
  simp only [parentIdx]
  omega

/-- Moving the element of slot `j` into slot `i` and then overwriting slot
`j` is, as a multiset, just overwriting slot `i`. -/
theorem mset_set_set {l : List α} {i j : ℕ} (hij : i ≠ j) (hi : i < l.length)
    (hj : j < l.length) (x : α) :
    (((l.set i (l.get ⟨j, hj⟩)).set j x : List α) : Multiset α) = ((l.set i x : List α) : Multiset α) := by
  set c := l.get ⟨j, hj⟩ with hc
  have hgj : l[j] = c := by simp [hc]
  have hj2 : j < (l.set i c).length := by simpa using hj
  have hA : (l.set i c)[j] = c := by
    rw [List.getElem_set_ne hij]
    exact hgj
  have e1 := mset_set (l := l.set i c) (i := j) (by simpa using hj) x
  rw [hA] at e1
  have e2 := mset_set (l := l) (i := i) hi c
  have e3 := mset_set (l := l) (i := i) hi x
  apply add_right_cancel (b := ({c} : Multiset α) + {l[i]})
  calc ((l.set i c).set j x : Multiset α) + ({c} + {l[i]})
      = (((l.set i c).set j x : Multiset α) + {c}) + {l[i]} := by rw [add_assoc]
    _ = ((l.set i c : Multiset α) + {x}) + {l[i]} := by rw [e1]
    _ = ((l.set i c : Multiset α) + {l[i]}) + {x} := by abel
    _ = ((l : Multiset α) + {c}) + {x} := by rw [e2]
    _ = ((l : Multiset α) + {x}) + {c} := by abel
    _ = ((l.set i x : Multiset α) + {l[i]}) + {c} := by rw [e3]
    _ = (l.set i x : Multiset α) + ({c} + {l[i]}) := by abel

theorem siftdown_length (k : α → ℚ) (s : ℕ) (x : α) :
    ∀ (pos : ℕ) (l : List α), (siftdown k s x pos l).length = l.length := by
  intro pos
  induction pos using Nat.strong_induction_on with
  | _ pos ih =>
    intro l
    unfold siftdown
    split_ifs with hs
    · cases hp : l[parentIdx pos]? with
      | none => simp [hp]
      | some parent =>
        simp only [hp]
        split_ifs with hcmp
        · rw [ih (parentIdx pos) (parentIdx_lt (by omega))]
          simp
        · simp
    · simp

theorem siftdown_mset (k : α → ℚ) (s : ℕ) (x : α) :
    ∀ (pos : ℕ) (l : List α), pos < l.length →
      ((siftdown k s x pos l : List α) : Multiset α) = ((l.set pos x : List α) : Multiset α) := by
  intro pos
  induction pos using Nat.strong_induction_on with
  | _ pos ih =>
    intro l hlen
    unfold siftdown
    split_ifs with hs
    · cases hp : l[parentIdx pos]? with
      | none =>
        exfalso
        have hnone := List.getElem?_eq_none_iff.1 hp
        have := parentIdx_lt (show 0 < pos by omega)
        omega
      | some parent =>
        simp only [hp]
        split_ifs with hcmp
        · have hpplt : parentIdx pos < pos := parentIdx_lt (by omega)
          have hpplen : parentIdx pos < (l.set pos parent).length := by
            simp
            omega
          rw [ih (parentIdx pos) hpplt (l.set pos parent) hpplen]
          -- the hole transposition: setting the parent slot to x after copying
          -- the parent into the hole is, as a multiset, just setting the hole to x
          have hppl : parentIdx pos < l.length := by omega
          have hgetpp : l[parentIdx pos] = parent := by
            have := List.getElem?_eq_getElem hppl
            rw [hp] at this
            exact (Option.some.injEq _ _ ▸ this.symm :)
          have e1 := mset_set (l := l.set pos parent) (i := parentIdx pos)
            (by simpa using hppl) x
          have hApp : (l.set pos parent)[parentIdx pos] = parent := by
            rw [List.getElem_set_ne (by omega)]
            exact hgetpp
          rw [hApp] at e1
          have e2 := mset_set (l := l) (i := pos) hlen parent
          have e3 := mset_set (l := l) (i := pos) hlen x
          apply add_right_cancel (b := ({parent} : Multiset α) + {l[pos]})
          calc ((l.set pos parent).set (parentIdx pos) x : Multiset α) + ({parent} + {l[pos]})
              = (((l.set pos parent).set (parentIdx pos) x : Multiset α) + {parent}) + {l[pos]} := by
                rw [add_assoc]
            _ = ((l.set pos parent : Multiset α) + {x}) + {l[pos]} := by rw [e1]
            _ = ((l.set pos parent : Multiset α) + {l[pos]}) + {x} := by abel
            _ = ((l : Multiset α) + {parent}) + {x} := by rw [e2]
            _ = ((l : Multiset α) + {x}) + {parent} := by abel
            _ = ((l.set pos x : Multiset α) + {l[pos]}) + {parent} := by rw [e3]
            _ = (l.set pos x : Multiset α) + ({parent} + {l[pos]}) := by abel
        · rfl
    · rfl

theorem siftdown_heapInvGE (k : α → ℚ) (s : ℕ) (x : α) :
    ∀ (pos : ℕ) (l : List α), pos < l.length → onChain s pos →
    (∀ j, j < l.length → 0 < j → s ≤ parentIdx j → parentIdx j ≠ pos → j ≠ pos →
      kAt k l (parentIdx j) ≤ kAt k l j) →
    (∀ j, j < l.length → 0 < j → parentIdx j = pos → k x ≤ kAt k l j) →
    (pos ≠ s → ∀ j, j < l.length → 0 < j → parentIdx j = pos →
      kAt k l (parentIdx pos) ≤ kAt k l j) →
    heapInvGE k (siftdown k s x pos l) s := by
  intro pos
  induction pos using Nat.strong_induction_on with
  | _ pos ih =>
    intro l hlen hchain hA hB hC
    unfold siftdown
    split_ifs with hs
    · cases hp : l[parentIdx pos]? with
      | none =>
        exfalso
        have hnone := List.getElem?_eq_none_iff.1 hp
        have := parentIdx_lt (show 0 < pos by omega)
        omega
      | some parent =>
        simp only [hp]
        have hpos0 : 0 < pos := by omega
        have hpplt : parentIdx pos < pos := parentIdx_lt hpos0
        have hppl : parentIdx pos < l.length := by omega
        have hkpp : kAt k l (parentIdx pos) = k parent := kAt_of_getElem? hp
        split_ifs with hcmp
        · -- the new item still compares below its parent: move the parent down
          have hchain' : onChain s (parentIdx pos) := onChain_parent hchain hs
          have hspp : s ≤ parentIdx pos := onChain_le hchain'
          refine ih (parentIdx pos) hpplt (l.set pos parent) (by simp; omega) hchain' ?_ ?_ ?_
          · -- edges not touching the new hole
            intro j hj hj0 hrel hipp hjpp
            rw [List.length_set] at hj
            by_cases hjp : j = pos
            · subst hjp
              exact absurd rfl hipp
            · rw [kAt_set_ne (fun h => hjp h.symm)]
              by_cases hpj : parentIdx j = pos
              · rw [hpj, kAt_set_self hlen]
                have := hC (by omega) j hj hj0 hpj
                rw [hkpp] at this
                exact this
              · rw [kAt_set_ne (fun h => hpj h.symm)]
                exact hA j hj hj0 hrel hpj hjp
          · -- the children of the new hole dominate the new item
            intro j hj hj0 hpj
            rw [List.length_set] at hj
            by_cases hjp : j = pos
            · subst hjp
              rw [kAt_set_self hlen]
              exact le_of_lt hcmp
            · rw [kAt_set_ne (fun h => hjp h.symm)]
              have hsib := hA j hj hj0 (by rw [hpj]; exact hspp) (by omega) hjp
              rw [hpj, hkpp] at hsib
              exact le_trans (le_of_lt hcmp) hsib
          · -- the children of the new hole dominate the new hole's parent
            intro hpps j hj hj0 hpj
            rw [List.length_set] at hj
            have hpp0 : 0 < parentIdx pos := by
              have := onChain_le hchain'
              omega
            have hgp : s ≤ parentIdx (parentIdx pos) :=
              onChain_le (onChain_parent hchain' (by omega))
            have hgplt : parentIdx (parentIdx pos) < parentIdx pos := parentIdx_lt hpp0
            rw [kAt_set_ne (show pos ≠ parentIdx (parentIdx pos) by omega)]
            have step1 := hA (parentIdx pos) hppl hpp0 hgp (by omega) (by omega)
            rw [hkpp] at step1
            by_cases hjp : j = pos
            · subst hjp
              rw [kAt_set_self hlen]
              exact step1
            · rw [kAt_set_ne (fun h => hjp h.symm)]
              have step2 := hA j hj hj0 (by rw [hpj]; exact hspp) (by omega) hjp
              rw [hpj, hkpp] at step2
              exact le_trans step1 step2
        · -- stop: the item is placed at `pos` under a parent that is not larger
          intro j hj hj0 hrel
          rw [List.length_set] at hj
          by_cases hjp : j = pos
          · subst hjp
            have hplt := parentIdx_lt hj0
            rw [kAt_set_self hlen, kAt_set_ne (by omega : j ≠ parentIdx j)]
            rw [hkpp]
            exact le_of_not_lt hcmp
          · rw [kAt_set_ne (fun h => hjp h.symm)]
            by_cases hpj : parentIdx j = pos
            · rw [hpj, kAt_set_self hlen]
              exact hB j hj hj0 hpj
            · rw [kAt_set_ne (fun h => hpj h.symm)]
              exact hA j hj hj0 hrel hpj hjp
    · -- pos = s: place the item at the start position
      have hps : pos = s := by
        have := onChain_le hchain
        omega
      intro j hj hj0 hrel
      rw [List.length_set] at hj
      by_cases hjp : j = pos
      · subst hjp
        exfalso
        have := parentIdx_lt hj0
        omega
      · rw [kAt_set_ne (fun h => hjp h.symm)]
        by_cases hpj : parentIdx j = pos
        · rw [hpj, kAt_set_self hlen]
          exact hB j hj hj0 hpj
        · rw [kAt_set_ne (fun h => hpj h.symm)]
          exact hA j hj hj0 hrel hpj hjp

theorem siftupLoop_spec (k : α → ℚ) (l : List α) (pos : ℕ) :
    pos < l.length →
    ((siftupLoop k l pos).1.length = l.length ∧
     pos ≤ (siftupLoop k l pos).2 ∧
     (siftupLoop k l pos).2 < l.length ∧
     l.length ≤ 2 * (siftupLoop k l pos).2 + 1) := by
  induction l, pos using siftupLoop.induct k with
  | case1 l pos hc hr hcmp ih =>
    intro _
    unfold siftupLoop
    rw [dif_pos hc, dif_pos hr, if_pos hcmp]
    have h2 : 2 * pos + 2 < (l.set pos (l.get ⟨2 * pos + 2, hr⟩)).length := by simpa using hr
    have := ih h2
    simp only [List.length_set] at this
    exact ⟨this.1, by omega, this.2.2⟩
  | case2 l pos hc hr hcmp ih =>
    intro _
    unfold siftupLoop
    rw [dif_pos hc, dif_pos hr, if_neg hcmp]
    have h2 : 2 * pos + 1 < (l.set pos (l.get ⟨2 * pos + 1, hc⟩)).length := by simpa using hc
    have := ih h2
    simp only [List.length_set] at this
    exact ⟨this.1, by omega, this.2.2⟩
  | case3 l pos hc hr ih =>
    intro _
    unfold siftupLoop
    rw [dif_pos hc, dif_neg hr]
    have h2 : 2 * pos + 1 < (l.set pos (l.get ⟨2 * pos + 1, hc⟩)).length := by simpa using hc
    have := ih h2
    simp only [List.length_set] at this
    exact ⟨this.1, by omega, this.2.2⟩
  | case4 l pos hc =>
    intro hpos
    unfold siftupLoop
    rw [dif_neg hc]
    exact ⟨rfl, le_refl pos, hpos, by omega⟩

theorem siftupLoop_mset (k : α → ℚ) (l : List α) (pos : ℕ) :
    pos < l.length → ∀ x : α,
      (((siftupLoop k l pos).1.set (siftupLoop k l pos).2 x : List α) : Multiset α)
        = ((l.set pos x : List α) : Multiset α) := by
  induction l, pos using siftupLoop.induct k with
  | case1 l pos hc hr hcmp ih =>
    intro hpos x
    unfold siftupLoop
    rw [dif_pos hc, dif_pos hr, if_pos hcmp]
    have h2 : 2 * pos + 2 < (l.set pos (l.get ⟨2 * pos + 2, hr⟩)).length := by simpa using hr
    rw [ih h2 x]
    exact mset_set_set (by omega) hpos hr x
  | case2 l pos hc hr hcmp ih =>
    intro hpos x
    unfold siftupLoop
    rw [dif_pos hc, dif_pos hr, if_neg hcmp]
    have h2 : 2 * pos + 1 < (l.set pos (l.get ⟨2 * pos + 1, hc⟩)).length := by simpa using hc
    rw [ih h2 x]
    exact mset_set_set (by omega) hpos hc x
  | case3 l pos hc hr ih =>
    intro hpos x
    unfold siftupLoop
    rw [dif_pos hc, dif_neg hr]
    have h2 : 2 * pos + 1 < (l.set pos (l.get ⟨2 * pos + 1, hc⟩)).length := by simpa using hc
    rw [ih h2 x]
    exact mset_set_set (by omega) hpos hc x
  | case4 l pos hc =>
    intro hpos x
    unfold siftupLoop
    rw [dif_neg hc]

/-- One step of the sift-up loop: moving the minimal child `cidx` of the
hole `pos` into the hole keeps (1) the hole on the chain of `s`, (2) the
heap ordering away from the hole, and (3) the domination of the hole's
children by the hole's parent. -/
theorem siftupLoop_step (k : α → ℚ) (s : ℕ) (l : List α) (pos cidx : ℕ)
    (hcidx : cidx < l.length) (hpc : parentIdx cidx = pos) (hlt : pos < cidx)
    (hchain : onChain s pos)
    (hA : ∀ j, j < l.length → 0 < j → s ≤ parentIdx j → parentIdx j ≠ pos → j ≠ pos →
      kAt k l (parentIdx j) ≤ kAt k l j)
    (hF : pos ≠ s → ∀ j, j < l.length → 0 < j → parentIdx j = pos →
      kAt k l (parentIdx pos) ≤ kAt k l j)
    (hmin : ∀ j, j < l.length → 0 < j → parentIdx j = pos → j ≠ cidx →
      kAt k l cidx ≤ kAt k l j) :
    onChain s cidx ∧
    (∀ j, j < l.length → 0 < j → s ≤ parentIdx j → parentIdx j ≠ cidx → j ≠ cidx →
      kAt k (l.set pos (l.get ⟨cidx, hcidx⟩)) (parentIdx j)
        ≤ kAt k (l.set pos (l.get ⟨cidx, hcidx⟩)) j) ∧
    (cidx ≠ s → ∀ j, j < l.length → 0 < j → parentIdx j = cidx →
      kAt k (l.set pos (l.get ⟨cidx, hcidx⟩)) (parentIdx cidx)
        ≤ kAt k (l.set pos (l.get ⟨cidx, hcidx⟩)) j) := by
  have hposlen : pos < l.length := lt_trans hlt hcidx
  have hkc : k (l.get ⟨cidx, hcidx⟩) = kAt k l cidx := by
    simp [kAt, List.getElem?_eq_getElem hcidx]
  have hsetpos : kAt k (l.set pos (l.get ⟨cidx, hcidx⟩)) pos = kAt k l cidx := by
    rw [kAt_set_self hposlen, hkc]
  refine ⟨onChain_child hchain hpc hlt, ?_, ?_⟩
  · intro j hj hj0 hrel hip hjp
    by_cases hjpos : j = pos
    · rw [hjpos]
      have hpos0 : 0 < pos := by omega
      have hpplt := parentIdx_lt hpos0
      rw [hsetpos, kAt_set_ne (by omega : pos ≠ parentIdx pos)]
      have hsne : pos ≠ s := by
        rw [hjpos] at hrel
        omega
      exact hF hsne cidx hcidx (by omega) hpc
    · rw [kAt_set_ne (fun h => hjpos h.symm)]
      by_cases hpjpos : parentIdx j = pos
      · rw [hpjpos, hsetpos]
        exact hmin j hj hj0 hpjpos hjp
      · rw [kAt_set_ne (fun h => hpjpos h.symm)]
        exact hA j hj hj0 hrel hpjpos hjpos
  · intro _ j hj hj0 hpj
    have hjgt : cidx < j := parentIdx_child_gt hj0 hpj
    rw [hpc, hsetpos, kAt_set_ne (by omega : pos ≠ j)]
    have hscx : s ≤ cidx := le_trans (onChain_le hchain) (le_of_lt hlt)
    have := hA j hj hj0 (by omega) (by omega) (by omega)
    rw [hpj] at this
    exact this

theorem siftupLoop_inv (k : α → ℚ) (s : ℕ) (l : List α) (pos : ℕ) :
    pos < l.length → onChain s pos →
    (∀ j, j < l.length → 0 < j → s ≤ parentIdx j → parentIdx j ≠ pos → j ≠ pos →
      kAt k l (parentIdx j) ≤ kAt k l j) →
    (pos ≠ s → ∀ j, j < l.length → 0 < j → parentIdx j = pos →
      kAt k l (parentIdx pos) ≤ kAt k l j) →
    (onChain s (siftupLoop k l pos).2 ∧
     (∀ j, j < l.length → 0 < j → s ≤ parentIdx j → parentIdx j ≠ (siftupLoop k l pos).2 →
        j ≠ (siftupLoop k l pos).2 →
        kAt k (siftupLoop k l pos).1 (parentIdx j) ≤ kAt k (siftupLoop k l pos).1 j) ∧
     ((siftupLoop k l pos).2 ≠ s → ∀ j, j < l.length → 0 < j →
        parentIdx j = (siftupLoop k l pos).2 →
        kAt k (siftupLoop k l pos).1 (parentIdx (siftupLoop k l pos).2) ≤
          kAt k (siftupLoop k l pos).1 j)) := by
  induction l, pos using siftupLoop.induct k with
  | case1 l pos hc hr hcmp ih =>
    intro hpos hchain hA hF
    unfold siftupLoop
    rw [dif_pos hc, dif_pos hr, if_pos hcmp]
    have hstep := siftupLoop_step k s l pos (2 * pos + 2) hr (parentIdx_right pos) (by omega)
      hchain hA hF (fun j hj hj0 hpj hne => by
        rcases eq_child hj0 hpj with h1 | h1
        · rw [h1]
          exact le_of_not_lt hcmp
        · exact absurd h1 hne)
    have hres := ih (by simpa using hr) hstep.1
      (fun j hj hj0 hrel hip hjp => hstep.2.1 j (by simpa using hj) hj0 hrel hip hjp)
      (fun hne j hj hj0 hpj => hstep.2.2 hne j (by simpa using hj) hj0 hpj)
    refine ⟨hres.1, ?_, ?_⟩
    · intro j hj hj0 hrel hip hjp
      exact hres.2.1 j (by simpa using hj) hj0 hrel hip hjp
    · intro hne j hj hj0 hpj
      exact hres.2.2 hne j (by simpa using hj) hj0 hpj
  | case2 l pos hc hr hcmp ih =>
    intro hpos hchain hA hF
    unfold siftupLoop
    rw [dif_pos hc, dif_pos hr, if_neg hcmp]
    have hstep := siftupLoop_step k s l pos (2 * pos + 1) hc (parentIdx_left pos) (by omega)
      hchain hA hF (fun j hj hj0 hpj hne => by
        rcases eq_child hj0 hpj with h1 | h1
        · exact absurd h1 hne
        · rw [h1]
          exact le_of_lt (not_not.1 hcmp))
    have hres := ih (by simpa using hc) hstep.1
      (fun j hj hj0 hrel hip hjp => hstep.2.1 j (by simpa using hj) hj0 hrel hip hjp)
      (fun hne j hj hj0 hpj => hstep.2.2 hne j (by simpa using hj) hj0 hpj)
    refine ⟨hres.1, ?_, ?_⟩
    · intro j hj hj0 hrel hip hjp
      exact hres.2.1 j (by simpa using hj) hj0 hrel hip hjp
    · intro hne j hj hj0 hpj
      exact hres.2.2 hne j (by simpa using hj) hj0 hpj
  | case3 l pos hc hr ih =>
    intro hpos hchain hA hF
    unfold siftupLoop
    rw [dif_pos hc, dif_neg hr]
    have hstep := siftupLoop_step k s l pos (2 * pos + 1) hc (parentIdx_left pos) (by omega)
      hchain hA hF (fun j hj hj0 hpj hne => by
        rcases eq_child hj0 hpj with h1 | h1
        · exact absurd h1 hne
        · exfalso
          omega)
    have hres := ih (by simpa using hc) hstep.1
      (fun j hj hj0 hrel hip hjp => hstep.2.1 j (by simpa using hj) hj0 hrel hip hjp)
      (fun hne j hj hj0 hpj => hstep.2.2 hne j (by simpa using hj) hj0 hpj)
    refine ⟨hres.1, ?_, ?_⟩
    · intro j hj hj0 hrel hip hjp
      exact hres.2.1 j (by simpa using hj) hj0 hrel hip hjp
    · intro hne j hj hj0 hpj
      exact hres.2.2 hne j (by simpa using hj) hj0 hpj
  | case4 l pos hc =>
    intro hpos hchain hA hF
    unfold siftupLoop
    rw [dif_neg hc]
    exact ⟨hchain, hA, hF⟩

theorem siftup_length (k : α → ℚ) (l : List α) (pos : ℕ) :
    (siftup k l pos).length = l.length := by
  unfold siftup
  cases hp : l[pos]? with
  | none => rfl
  | some newitem =>
    have hpos : pos < l.length := by
      by_contra hcon
      rw [List.getElem?_eq_none_iff.2 (by omega)] at hp
      exact Option.noConfusion hp
    have hspec := siftupLoop_spec k l pos hpos
    simp only []
    rw [siftdown_length]
    simp [hspec.1]

theorem siftup_mset (k : α → ℚ) (l : List α) (pos : ℕ) (hpos : pos < l.length) :
    ((siftup k l pos : List α) : Multiset α) = (l : Multiset α) := by
  unfold siftup
  have hp : l[pos]? = some l[pos] := List.getElem?_eq_getElem hpos
  rw [hp]
  simp only []
  have hspec := siftupLoop_spec k l pos hpos
  have h2 : (siftupLoop k l pos).2 < ((siftupLoop k l pos).1.set (siftupLoop k l pos).2 l[pos]).length := by
    simp [hspec.1]
    exact hspec.2.2.1
  rw [siftdown_mset k pos l[pos] (siftupLoop k l pos).2 _ h2]
  rw [List.set_set]
  rw [siftupLoop_mset k l pos hpos l[pos]]
  have := mset_set (l := l) (i := pos) hpos l[pos]
  exact add_right_cancel this

theorem siftup_heapInvGE (k : α → ℚ) (l : List α) (pos : ℕ) (hpos : pos < l.length)
    (hinv : heapInvGE k l (pos + 1)) : heapInvGE k (siftup k l pos) pos := by
  unfold siftup
  have hp : l[pos]? = some l[pos] := List.getElem?_eq_getElem hpos
  rw [hp]
  simp only []
  have hspec := siftupLoop_spec k l pos hpos
  have hloop := siftupLoop_inv k pos l pos hpos (onChain_self pos)
    (fun j hj hj0 hrel hip hjp => hinv j hj hj0 (by omega))
    (fun hne => absurd rfl hne)
  set r := siftupLoop k l pos with hr
  have hlen1 : r.1.length = l.length := hspec.1
  have hr2 : r.2 < (r.1.set r.2 l[pos]).length := by
    simp [hlen1]
    exact hspec.2.2.1
  apply siftdown_heapInvGE k pos l[pos] r.2 (r.1.set r.2 l[pos]) hr2 hloop.1
  · -- heap ordering away from the hole carries over to the list with the
    -- saved item written into the hole
    intro j hj hj0 hrel hip hjp
    rw [List.length_set, hlen1] at hj
    rw [kAt_set_ne (fun h => hjp h.symm), kAt_set_ne (fun h => hip h.symm)]
    exact hloop.2.1 j hj hj0 hrel hip hjp
  · -- the final hole has no children: the domination hypotheses are vacuous
    intro j hj hj0 hpj
    exfalso
    rw [List.length_set, hlen1] at hj
    rcases eq_child hj0 hpj with h1 | h1 <;> omega
  · intro _ j hj hj0 hpj
    exfalso
    rw [List.length_set, hlen1] at hj
    rcases eq_child hj0 hpj with h1 | h1 <;> omega

theorem heapInv_root_min (k : α → ℚ) (l : List α) (hinv : heapInv k l) :
    ∀ j, j < l.length → kAt k l 0 ≤ kAt k l j := by
  intro j
  induction j using Nat.strong_induction_on with
  | _ j ih =>
    intro hj
    rcases Nat.eq_zero_or_pos j with h0 | h0
    · rw [h0]
    · have hplt := parentIdx_lt h0
      exact le_trans (ih (parentIdx j) hplt (by omega)) (hinv j hj h0 (by omega))

theorem heappush_length (k : α → ℚ) (l : List α) (x : α) :
    (heappush k l x).length = l.length + 1 := by
  unfold heappush
  rw [siftdown_length]
  simp

theorem heappush_mset (k : α → ℚ) (l : List α) (x : α) :
    ((heappush k l x : List α) : Multiset α) = (l : Multiset α) + {x} := by
  unfold heappush
  have hlen : l.length < (l ++ [x]).length := by simp
  rw [siftdown_mset k 0 x l.length (l ++ [x]) hlen]
  have hget : (l ++ [x])[l.length] = x := List.getElem_concat_length l x l.length rfl hlen
  have := mset_set (l := l ++ [x]) (i := l.length) hlen x
  rw [hget] at this
  have h2 : ((l ++ [x] : List α) : Multiset α) = (l : Multiset α) + {x} := by
    rw [← Multiset.coe_add]
    rfl
  have h3 := add_right_cancel this
  rw [h3, h2]

theorem heappush_heapInv (k : α → ℚ) (l : List α) (x : α) (hinv : heapInv k l) :
    heapInv k (heappush k l x) := by
  unfold heappush heapInv
  have hchain := onChain_zero l.length
  apply siftdown_heapInvGE k 0 x l.length (l ++ [x]) (by simp) hchain
  · intro j hj hj0 _ hip hjp
    simp only [List.length_append, List.length_cons, List.length_nil] at hj
    have hjlt : j < l.length := by omega
    have hplt : parentIdx j < l.length := by
      have := parentIdx_lt hj0
      omega
    rw [kAt_append_left hjlt, kAt_append_left hplt]
    exact hinv j hjlt hj0 (by omega)
  · intro j hj hj0 hpj
    exfalso
    simp only [List.length_append, List.length_cons, List.length_nil] at hj
    rcases eq_child hj0 hpj with h1 | h1 <;> omega
  · intro _ j hj hj0 hpj
    exfalso
    simp only [List.length_append, List.length_cons, List.length_nil] at hj
    rcases eq_child hj0 hpj with h1 | h1 <;> omega

theorem heappop_nil (k : α → ℚ) : heappop k ([] : List α) = none := rfl

theorem heappop_single (k : α → ℚ) (x : α) : heappop k [x] = some (x, []) := rfl

theorem heappop_cons_cons (k : α → ℚ) (x z : α) (t : List α) :
    heappop k (x :: z :: t) =
      some (x, siftup k (((x :: z :: t).dropLast).set 0 ((x :: z :: t).getLast (by simp))) 0) := by
  unfold heappop
  simp only [List.dropLast_cons₂]

theorem heappop_spec (k : α → ℚ) (l : List α) (hne : l ≠ []) (hinv : heapInv k l) :
    ∃ a l₂, heappop k l = some (a, l₂) ∧
      ((l₂ : List α) : Multiset α) + {a} = ((l : List α) : Multiset α) ∧
      heapInv k l₂ ∧
      (∀ b ∈ l, k a ≤ k b) := by
  match l with
  | [] => exact absurd rfl hne
  | [x] =>
    refine ⟨x, [], heappop_single k x, by simp, ?_, ?_⟩
    · intro j hj hj0 hrel
      simp at hj
    · intro b hb
      simp at hb
      rw [hb]
  | x :: z :: t =>
    set L := x :: z :: t with hL
    set lastelt := L.getLast (by simp) with hlast
    set M := (L.dropLast).set 0 lastelt with hM
    have hM0len : L.dropLast.length = t.length + 1 := by simp [hL]
    have hMlen : M.length = t.length + 1 := by simp [hM, hM0len]
    have hMpos : 0 < M.length := by omega
    have hd0 : L.dropLast.length < L.length := by simp [hL]
    -- the tail of the heap keeps its ordering after the root is overwritten
    have hGE1 : heapInvGE k M 1 := by
      intro j hj hj0 hrel
      have hjne : j ≠ 0 := by omega
      have hpne : parentIdx j ≠ 0 := by omega
      have hplt : parentIdx j < j := parentIdx_lt hj0
      rw [hM, kAt_set_ne (fun h => hjne h.symm), kAt_set_ne (fun h => hpne h.symm)]
      have hjlen : j < L.dropLast.length := by
        rw [hM, List.length_set] at hj
        exact hj
      rw [kAt_dropLast hjlen, kAt_dropLast (by omega)]
      exact hinv j (by omega) hj0 (by omega)
    have hpopinv : heapInv k (siftup k M 0) := siftup_heapInvGE k M 0 hMpos hGE1
    have hmset1 : ((siftup k M 0 : List α) : Multiset α) = (M : Multiset α) :=
      siftup_mset k M 0 hMpos
    have hM00 : L.dropLast[0] = x := by
      rw [List.getElem_dropLast]
      rfl
    have hmset2 := mset_set (l := L.dropLast) (i := 0) (by omega) lastelt
    rw [hM00] at hmset2
    have hmset3 : (L.dropLast : Multiset α) + {lastelt} = (L : Multiset α) := by
      have := List.dropLast_concat_getLast (l := L) (by simp)
      calc (L.dropLast : Multiset α) + {lastelt}
          = ((L.dropLast ++ [lastelt] : List α) : Multiset α) := by
            rw [← Multiset.coe_add]
            rfl
        _ = (L : Multiset α) := by rw [this]
    refine ⟨x, siftup k M 0, heappop_cons_cons k x z t, ?_, hpopinv, ?_⟩
    · rw [hmset1, hmset2, hmset3]
    · intro b hb
      have hroot := heapInv_root_min k L hinv
      have hk0 : kAt k L 0 = k x := by
        simp [hL, kAt]
      rcases mem_of_kAt (k := k) hb with ⟨j, hj, hkj⟩
      rw [← hkj, ← hk0]
      exact hroot j hj

/-- `heappop` trades the returned element for the heap, as multisets; no
heap ordering is needed for this. -/
theorem heappop_mset (k : α → ℚ) (l : List α) (a : α) (l₂ : List α)
    (h : heappop k l = some (a, l₂)) :
    ((l₂ : List α) : Multiset α) + {a} = ((l : List α) : Multiset α) := by
  match l with
  | [] => exact Option.noConfusion h
  | [x] =>
    rw [heappop_single] at h
    obtain ⟨rfl, rfl⟩ : x = a ∧ [] = l₂ := by
      constructor <;> [skip; skip] <;> cases h <;> rfl
    simp
  | x :: z :: t =>
    rw [heappop_cons_cons] at h
    set L := x :: z :: t with hL
    set lastelt := L.getLast (by simp) with hlast
    set M := (L.dropLast).set 0 lastelt with hM
    have hax : a = x ∧ l₂ = siftup k M 0 := by
      cases h
      exact ⟨rfl, rfl⟩
    rcases hax with ⟨rfl, rfl⟩
    have hM0len : L.dropLast.length = t.length + 1 := by simp [hL]
    have hMpos : 0 < M.length := by simp [hM, hM0len]
    have hmset1 : ((siftup k M 0 : List α) : Multiset α) = (M : Multiset α) :=
      siftup_mset k M 0 hMpos
    have hM00 : L.dropLast[0] = a := by
      rw [List.getElem_dropLast]
      rfl
    have hmset2 := mset_set (l := L.dropLast) (i := 0) (by omega) lastelt
    rw [hM00] at hmset2
    have hmset3 : (L.dropLast : Multiset α) + {lastelt} = (L : Multiset α) := by
      have := List.dropLast_concat_getLast (l := L) (by simp)
      calc (L.dropLast : Multiset α) + {lastelt}
          = ((L.dropLast ++ [lastelt] : List α) : Multiset α) := by
            rw [← Multiset.coe_add]
            rfl
        _ = (L : Multiset α) := by rw [this]
    rw [hmset1, hmset2, hmset3]

theorem heapInvGE_length_div_two (k : α → ℚ) (l : List α) : heapInvGE k l (l.length / 2) := by
  intro j hj hj0 hrel
  exfalso
  simp only [parentIdx] at hrel
  omega

theorem heapifyAux_spec (k : α → ℚ) :
    ∀ (i : ℕ) (l : List α), i ≤ l.length → heapInvGE k l i →
      (heapInv k (heapifyAux k i l) ∧
       ((heapifyAux k i l : List α) : Multiset α) = ((l : List α) : Multiset α) ∧
       (heapifyAux k i l).length = l.length) := by
  intro i
  induction i with
  | zero =>
    intro l _ hinv
    exact ⟨hinv, rfl, rfl⟩
  | succ i ih =>
    intro l hle hinv
    have hilt : i < l.length := by omega
    have h1 : heapInvGE k (siftup k l i) i := siftup_heapInvGE k l i hilt hinv
    have hlen := siftup_length k l i
    have hmset := siftup_mset k l i hilt
    simp only [heapifyAux]
    have := ih (siftup k l i) (by omega) h1
    exact ⟨this.1, this.2.1.trans hmset, this.2.2.trans hlen⟩

theorem heapify_heapInv (k : α → ℚ) (l : List α) : heapInv k (heapify k l) :=
  (heapifyAux_spec k (l.length / 2) l (by omega) (heapInvGE_length_div_two k l)).1

theorem heapify_mset (k : α → ℚ) (l : List α) :
    ((heapify k l : List α) : Multiset α) = ((l : List α) : Multiset α) :=
  (heapifyAux_spec k (l.length / 2) l (by omega) (heapInvGE_length_div_two k l)).2.1

/-- Membership transfer along a multiset equation of the pop shape. -/
theorem mem_of_mset_pop {l₂ l : List α} {a b : α}
    (h : ((l₂ : List α) : Multiset α) + {a} = ((l : List α) : Multiset α))
    (hb : b ∈ l₂) : b ∈ l := by
  have : b ∈ ((l₂ : List α) : Multiset α) + ({a} : Multiset α) := by
    rw [Multiset.mem_add]
    exact Or.inl (Multiset.mem_coe.2 hb)
  rw [h] at this
  exact Multiset.mem_coe.1 this

theorem mem_of_mset_eq {l₂ l : List α} {b : α}
    (h : ((l₂ : List α) : Multiset α) = ((l : List α) : Multiset α))
    (hb : b ∈ l₂) : b ∈ l :=
  Multiset.mem_coe.1 (h ▸ Multiset.mem_coe.2 hb)

theorem mem_heappush {l : List α} {k : α → ℚ} {x b : α} (hb : b ∈ heappush k l x) :
    b ∈ l ∨ b = x := by
  have h := heappush_mset k l x
  have : b ∈ ((l : List α) : Multiset α) + ({x} : Multiset α) := by
    rw [← h]
    exact Multiset.mem_coe.2 hb
  rw [Multiset.mem_add] at this
  rcases this with h1 | h1
  · exact Or.inl (Multiset.mem_coe.1 h1)
  · exact Or.inr (Multiset.mem_singleton.1 h1)

end Heapq

/-!
### The priority scheduler

A state-passing model of `PriorityQueueManager`
(`tools/priority_queue_manager.py`).  MongoDB calls (`patient_model.*`,
`queue_state.*`, `_load_from_mongodb`) only touch the external store and are
dropped; the model starts from the state a fresh manager has over an empty
store.  `datetime.utcnow()` values are passed in as an explicit `now`
string.  CPython mutates patient objects shared between `patient_map` and
`main_queue`; the model applies the same mutation to the map entry and to
the structurally equal queue slot, which coincides with object identity for
the unique tokens the callers use.
-/

namespace PQM

/-- The two keys `enqueue_patient` reads from the `symptoms_analysis` dict
(each with its `.get` default). -/
structure SymptomsAnalysis where
  urgency_score : Option ℤ := none
  estimated_consultation_mins : Option ℤ := none
deriving DecidableEq

/-- The one path `enqueue_patient` reads from the `travel_data` dict:
`travel_data["travel_options"]["driving"]["traffic_duration_mins"]`,
with its `.get` default chain. -/
structure TravelData where
  traffic_duration_mins : Option ℚ := none
deriving DecidableEq

/-- `PatientNode` of the source, field for field; floats become rationals. -/
structure PatientNode where
  priority_score : ℚ
  token_number : ℤ
  name : String
  contact_number : String
  emergency_level : ℕ := 0
  travel_eta_mins : ℚ := 20
  predicted_consult_mins : ℤ := 15
  waiting_time_mins : ℚ := 0
  arrival_probability : ℚ := 1
  symptoms : String := ""
  symptoms_analysis : SymptomsAnalysis := {}
  location : String := ""
  travel_data : TravelData := {}
  booking_time : String := ""
  expected_arrival : Option String := none
  actual_arrival : Option String := none
  last_priority_update : String := ""
  position_history : List ℤ := []
deriving DecidableEq

namespace EmergencyLevel

def NORMAL : ℕ := 0

def PRIORITY : ℕ := 1

def CRITICAL : ℕ := 2

end EmergencyLevel

namespace PriorityWeights

def EMERGENCY : ℚ := 5

def TRAVEL_ETA : ℚ := 2

def CONSULTATION_TIME : ℚ := 1

def WAITING_TIME : ℚ := -3

def ARRIVAL_PROB : ℚ := 3/2

end PriorityWeights

/-- `@dataclass(order=True)` with `priority_score` as the only field that
takes part in comparisons: the heap key. -/
def nodeKey (p : PatientNode) : ℚ := p.priority_score

/-- `calculate_priority_score`, including the `round(score, 2)`. -/
def calculate_priority_score (p : PatientNode) : ℚ :=
  round2 (PriorityWeights.EMERGENCY * (p.emergency_level : ℚ) +
    PriorityWeights.TRAVEL_ETA * p.travel_eta_mins +
    PriorityWeights.CONSULTATION_TIME * (p.predicted_consult_mins : ℚ) +
    PriorityWeights.WAITING_TIME * p.waiting_time_mins +
    PriorityWeights.ARRIVAL_PROB * (1 - p.arrival_probability))

/-- Insertion-ordered dictionary lookup (Python `dict`). -/
def dictLookup {β : Type} (m : List (ℤ × β)) (t : ℤ) : Option β :=
  (m.find? (fun e => decide (e.1 = t))).map Prod.snd

def dictContains {β : Type} (m : List (ℤ × β)) (t : ℤ) : Bool :=
  (dictLookup m t).isSome

/-- Python `d[k] = v`: replace in place when the key exists, append
otherwise. -/
def dictSet {β : Type} (m : List (ℤ × β)) (t : ℤ) (b : β) : List (ℤ × β) :=
  if dictContains m t then m.map (fun e => if e.1 = t then (t, b) else e) else m ++ [(t, b)]

/-- Python `del d[k]` at the call sites that guard with `k in d` (for an
absent key this is the identity). -/
def dictDel {β : Type} (m : List (ℤ × β)) (t : ℤ) : List (ℤ × β) :=
  m.filter (fun e => decide (e.1 ≠ t))

/-- The in-memory state of a `PriorityQueueManager`; the default values are
the state of a fresh manager over an empty store. -/
structure SchedulerState where
  main_queue : List PatientNode := []
  emergency_queue : List PatientNode := []
  patient_map : List (ℤ × PatientNode) := []
  wait_tracker : List (ℤ × ℚ) := []
  total_enqueued : ℕ := 0
  total_dequeued : ℕ := 0
  reorder_count : ℕ := 0
deriving DecidableEq

/-- The keys `enqueue_patient` reads from its `patient_data` dict
(`token_number`, `name`, `contact_number` are accessed unconditionally, the
rest through `.get` with a default). -/
structure PatientData where
  token_number : ℤ
  name : String
  contact_number : String
  symptoms : String := ""
  symptoms_analysis : SymptomsAnalysis := {}
  location : String := ""
  travel_data : TravelData := {}
  booking_time : Option String := none
deriving DecidableEq

/-- The urgency-score classifier inside `enqueue_patient`
(`>= 8` CRITICAL, `>= 6` PRIORITY, otherwise NORMAL). -/
def classifyUrgency (urgency : ℤ) : ℕ :=
  if urgency ≥ 8 then EmergencyLevel.CRITICAL
  else if urgency ≥ 6 then EmergencyLevel.PRIORITY
  else EmergencyLevel.NORMAL

/-- The `PatientNode(...)` literal of `enqueue_patient` followed by the two
assignments `patient.priority_score = ...` and
`patient.last_priority_update = ...`. -/
def mkPatientNode (patient_data : PatientData) (now : String) : PatientNode :=
  let symptoms_analysis := patient_data.symptoms_analysis
  let travel_data := patient_data.travel_data
  let urgency := symptoms_analysis.urgency_score.getD 5
  let emergency_level : ℕ := classifyUrgency urgency
  let travel_eta := travel_data.traffic_duration_mins.getD 20
  let patient0 : PatientNode :=
    { priority_score := 0
      token_number := patient_data.token_number
      name := patient_data.name
      contact_number := patient_data.contact_number
      emergency_level := emergency_level
      travel_eta_mins := travel_eta
      predicted_consult_mins := symptoms_analysis.estimated_consultation_mins.getD 15
      waiting_time_mins := 0
      symptoms := patient_data.symptoms
      symptoms_analysis := symptoms_analysis
      location := patient_data.location
      travel_data := travel_data
      booking_time := patient_data.booking_time.getD now }
  { patient0 with
    priority_score := calculate_priority_score patient0
    last_priority_update := now }

/-- The `PatientNode(...)` copy pushed on the emergency queue: negated
score, the eight copied fields, dataclass defaults for all the rest. -/
def mkEmergencyNode (patient : PatientNode) : PatientNode :=
  { priority_score := -patient.priority_score
    token_number := patient.token_number
    name := patient.name
    contact_number := patient.contact_number
    emergency_level := patient.emergency_level
    travel_eta_mins := patient.travel_eta_mins
    predicted_consult_mins := patient.predicted_consult_mins
    symptoms := patient.symptoms
    symptoms_analysis := patient.symptoms_analysis }

/-- `enqueue_patient`. -/
def enqueue_patient (s : SchedulerState) (patient_data : PatientData) (now : String) :
    SchedulerState × PatientNode :=
  let patient := mkPatientNode patient_data now
  let s1 :=
    if patient.emergency_level = EmergencyLevel.CRITICAL then
      { s with emergency_queue :=
          Heapq.heappush nodeKey s.emergency_queue (mkEmergencyNode patient) }
    else
      { s with main_queue := Heapq.heappush nodeKey s.main_queue patient }
  ({ s1 with
      patient_map := dictSet s1.patient_map patient.token_number patient
      wait_tracker := dictSet s1.wait_tracker patient.token_number 0
      total_enqueued := s1.total_enqueued + 1 }, patient)

/-- `dequeue_next_patient`.  The Python code checks emptiness before each
`heappop`; matching on the pop result is the same selection. -/
def dequeue_next_patient (s : SchedulerState) : SchedulerState × Option PatientNode :=
  match Heapq.heappop nodeKey s.emergency_queue with
  | some (p0, eq2) =>
    let patient := { p0 with priority_score := -p0.priority_score }
    ({ s with
        emergency_queue := eq2
        patient_map := dictDel s.patient_map patient.token_number
        wait_tracker := dictDel s.wait_tracker patient.token_number
        total_dequeued := s.total_dequeued + 1 }, some patient)
  | none =>
    match Heapq.heappop nodeKey s.main_queue with
    | some (patient, mq2) =>
      ({ s with
          main_queue := mq2
          patient_map := dictDel s.patient_map patient.token_number
          wait_tracker := dictDel s.wait_tracker patient.token_number
          total_dequeued := s.total_dequeued + 1 }, some patient)
    | none => (s, none)

/-- `peek`: for an emergency head, a fresh copy with the sign of the score
restored and every other field left at its dataclass default. -/
def peek (s : SchedulerState) : Option PatientNode :=
  match s.emergency_queue with
  | patient :: _ =>
    some { priority_score := -patient.priority_score
           token_number := patient.token_number
           name := patient.name
           contact_number := patient.contact_number
           emergency_level := patient.emergency_level
           travel_eta_mins := patient.travel_eta_mins
           predicted_consult_mins := patient.predicted_consult_mins
           symptoms := patient.symptoms
           symptoms_analysis := patient.symptoms_analysis }
  | [] =>
    match s.main_queue with
    | patient :: _ => some patient
    | [] => none

/-- `_reheapify_queue`. -/
def reheapify_queue (s : SchedulerState) : SchedulerState :=
  { s with
    main_queue := Heapq.heapify nodeKey s.main_queue
    emergency_queue := Heapq.heapify nodeKey s.emergency_queue
    reorder_count := s.reorder_count + 1 }

/-- `remove_patient`. -/
def remove_patient (s : SchedulerState) (token_number : ℤ) : SchedulerState × Bool :=
  match dictLookup s.patient_map token_number with
  | none => (s, false)
  | some patient =>
    let equeue2 :=
      Heapq.heapify nodeKey
        (s.emergency_queue.filter (fun p => decide (p.token_number ≠ token_number)))
    let mqueue2 :=
      Heapq.heapify nodeKey
        (s.main_queue.filter (fun p => decide (p.token_number ≠ token_number)))
    let s1 :=
      if patient.emergency_level = EmergencyLevel.CRITICAL then
        { s with emergency_queue := equeue2 }
      else
        { s with main_queue := mqueue2 }
    ({ s1 with
        patient_map := dictDel s1.patient_map token_number
        wait_tracker := dictDel s1.wait_tracker token_number
        total_dequeued := s1.total_dequeued + 1 }, true)

/-- The three keys `update_patient_attributes` reads from its `updates`
dict. -/
structure AttrUpdates where
  travel_eta_mins : Option ℚ := none
  actual_arrival : Option String := none
  arrival_probability : Option ℚ := none
deriving DecidableEq

/-- `update_patient_attributes`.  The node held in `patient_map` is the
same object as the slot of `main_queue` holding it (emergency entries are
separate copies), so the mutation lands in both. -/
def update_patient_attributes (s : SchedulerState) (token_number : ℤ) (updates : AttrUpdates)
    (now : String) : SchedulerState × Bool :=
  match dictLookup s.patient_map token_number with
  | none => (s, false)
  | some patient =>
    let patient1 : PatientNode :=
      { patient with
        travel_eta_mins := updates.travel_eta_mins.getD patient.travel_eta_mins
        actual_arrival :=
          match updates.actual_arrival with
          | some a => some a
          | none => patient.actual_arrival
        arrival_probability := updates.arrival_probability.getD patient.arrival_probability }
    let patient2 : PatientNode :=
      { patient1 with
        priority_score := calculate_priority_score patient1
        last_priority_update := now }
    let s1 :=
      { s with
        patient_map := dictSet s.patient_map token_number patient2
        main_queue := s.main_queue.map (fun p => if p = patient then patient2 else p) }
    (reheapify_queue s1, true)

/-- One patient's step of the `apply_aging` loop: the tracker entry under
key `t` grows by the elapsed minutes, the node takes that waiting time and
a freshly computed score.  (Python indexes `wait_tracker[t]` directly and
would raise `KeyError` for a missing key; the tracker always has the key
in reachable states, see `run_inv`.) -/
def agedNodeAt (s : SchedulerState) (elapsed_mins : ℚ) (t : ℤ) (p : PatientNode) : PatientNode :=
  let w := (dictLookup s.wait_tracker t).getD 0 + elapsed_mins
  let p1 := { p with waiting_time_mins := w }
  { p1 with priority_score := calculate_priority_score p1 }

/-- `apply_aging`.  The loop body touches one patient at a time (its own
tracker entry, its own fields), so the batched form is the same function;
`_reheapify_queue` runs once at the end when at least one score dropped. -/
def apply_aging (s : SchedulerState) (elapsed_mins : ℚ) : SchedulerState :=
  let aging_boosts :=
    (s.patient_map.filter (fun e =>
      decide ((agedNodeAt s elapsed_mins e.1 e.2).priority_score < e.2.priority_score))).length
  let s1 :=
    { s with
      patient_map := s.patient_map.map (fun e => (e.1, agedNodeAt s elapsed_mins e.1 e.2))
      wait_tracker := s.wait_tracker.map (fun e =>
        if dictContains s.patient_map e.1 then (e.1, e.2 + elapsed_mins) else e)
      main_queue := s.main_queue.map (fun p =>
        if dictLookup s.patient_map p.token_number = some p
        then agedNodeAt s elapsed_mins p.token_number p else p) }
  if 0 < aging_boosts then reheapify_queue s1 else s1

/-- One row of the snapshot's patient list. -/
structure SnapshotEntry where
  token_number : ℤ
  name : String
  priority_score : ℚ
  emergency_level : String
  waiting_time_mins : ℚ
  travel_eta_mins : ℚ
  symptoms : String
deriving DecidableEq

/-- The dict `get_queue_snapshot` returns (the nested `statistics` dict is
flattened into the last three fields). -/
structure QueueSnapshot where
  total_patients : ℕ
  emergency_count : ℕ
  main_queue_count : ℕ
  patients : List SnapshotEntry
  total_enqueued : ℕ
  total_dequeued : ℕ
  reorder_count : ℕ
deriving DecidableEq

/-- Python indexes the literal list and would raise `IndexError` beyond 2;
reachable levels are 0, 1, 2. -/
def emergencyLevelName (n : ℕ) : String :=
  List.getD ["NORMAL", "PRIORITY", "CRITICAL"] n ""

def snapshotEntryOfEmergency (s : SchedulerState) (p : PatientNode) : SnapshotEntry :=
  { token_number := p.token_number
    name := p.name
    priority_score := -p.priority_score
    emergency_level := "CRITICAL"
    waiting_time_mins := (dictLookup s.wait_tracker p.token_number).getD 0
    travel_eta_mins := p.travel_eta_mins
    symptoms := p.symptoms }

def snapshotEntryOfMain (s : SchedulerState) (p : PatientNode) : SnapshotEntry :=
  { token_number := p.token_number
    name := p.name
    priority_score := p.priority_score
    emergency_level := emergencyLevelName p.emergency_level
    waiting_time_mins := (dictLookup s.wait_tracker p.token_number).getD 0
    travel_eta_mins := p.travel_eta_mins
    symptoms := p.symptoms }

def scoreLE (a b : SnapshotEntry) : Bool := decide (a.priority_score ≤ b.priority_score)

/-- `get_queue_snapshot`.  Python's `list.sort(key=...)` is a stable
ascending sort, as is `List.mergeSort`, so the two agree as functions.
The method only reads the state: the model needs no state output. -/
def get_queue_snapshot (s : SchedulerState) : QueueSnapshot :=
  let all_patients :=
    s.emergency_queue.map (snapshotEntryOfEmergency s) ++ s.main_queue.map (snapshotEntryOfMain s)
  let emergency_patients := all_patients.filter (fun p =>
    decide (p.emergency_level = "PRIORITY" ∨ p.emergency_level = "CRITICAL"))
  let main_patients := all_patients.filter (fun p => decide (p.emergency_level = "NORMAL"))
  let emergency_sorted := emergency_patients.mergeSort scoreLE
  let main_sorted := main_patients.mergeSort scoreLE
  let sorted_patients := emergency_sorted ++ main_sorted
  { total_patients := sorted_patients.length
    emergency_count := emergency_patients.length
    main_queue_count := main_patients.length
    patients := sorted_patients
    total_enqueued := s.total_enqueued
    total_dequeued := s.total_dequeued
    reorder_count := s.reorder_count }

/-- The mutating operations of the scheduler's public interface. -/
inductive SchedOp where
  | enq (d : PatientData) (now : String)
  | deq
  | rem (token_number : ℤ)
  | upd (token_number : ℤ) (u : AttrUpdates) (now : String)
  | age (elapsed_mins : ℚ)

def applyOp (s : SchedulerState) : SchedOp → SchedulerState
  | .enq d now => (enqueue_patient s d now).1
  | .deq => (dequeue_next_patient s).1
  | .rem t => (remove_patient s t).1
  | .upd t u now => (update_patient_attributes s t u now).1
  | .age e => apply_aging s e

/-- The state after a sequence of operations on a fresh scheduler. -/
def run (ops : List SchedOp) : SchedulerState := ops.foldl applyOp {}

end PQM

/-!
#### Dictionary lemmas
-/

namespace PQM

theorem dictLookup_mem {β : Type} {m : List (ℤ × β)} {t : ℤ} {b : β}
    (h : dictLookup m t = some b) : (t, b) ∈ m := by
  unfold dictLookup at h
  cases hf : m.find? (fun e => decide (e.1 = t)) with
  | none => rw [hf] at h; exact Option.noConfusion h
  | some e0 =>
    rw [hf] at h
    have hkey : e0.1 = t := by
      have := List.find?_some hf
      simpa using this
    have hmem := List.mem_of_find?_eq_some hf
    have hval : e0.2 = b := Option.some.inj h
    have : e0 = (t, b) := by
      rcases e0 with ⟨t0, b0⟩
      simp at hkey hval
      rw [hkey, hval]
    rw [← this]
    exact hmem

theorem find?_of_dictLookup {β : Type} {m : List (ℤ × β)} {t : ℤ} {b : β}
    (h : dictLookup m t = some b) :
    m.find? (fun e => decide (e.1 = t)) = some (t, b) := by
  unfold dictLookup at h
  cases hf : m.find? (fun e => decide (e.1 = t)) with
  | none => rw [hf] at h; exact Option.noConfusion h
  | some e0 =>
    rw [hf] at h
    have hkey : e0.1 = t := by
      have := List.find?_some hf
      simpa using this
    have hval : e0.2 = b := Option.some.inj h
    rcases e0 with ⟨t0, b0⟩
    simp at hkey hval
    rw [hkey, hval]

theorem dictLookup_nil {β : Type} (t : ℤ) : dictLookup ([] : List (ℤ × β)) t = none := rfl

theorem dictLookup_not_mem {β : Type} {m : List (ℤ × β)} {t : ℤ}
    (h : dictLookup m t = none) : ∀ e ∈ m, e.1 ≠ t := by
  unfold dictLookup at h
  cases hf : m.find? (fun e => decide (e.1 = t)) with
  | none =>
    intro e he
    have := List.find?_eq_none.1 hf e he
    simpa using this
  | some e0 => rw [hf] at h; exact Option.noConfusion h

theorem mem_dictSet {β : Type} {m : List (ℤ × β)} {t : ℤ} {b : β} {e : ℤ × β}
    (h : e ∈ dictSet m t b) : e = (t, b) ∨ (e ∈ m ∧ e.1 ≠ t) := by
  unfold dictSet at h
  split_ifs at h with hc
  · rcases List.mem_map.1 h with ⟨e0, he0, heq⟩
    by_cases hk : e0.1 = t
    · rw [if_pos hk] at heq
      exact Or.inl heq.symm
    · rw [if_neg hk] at heq
      exact Or.inr ⟨heq ▸ he0, heq ▸ hk⟩
  · rcases List.mem_append.1 h with h1 | h1
    · refine Or.inr ⟨h1, ?_⟩
      unfold dictContains at hc
      have hnone : dictLookup m t = none := by
        cases hl : dictLookup m t with
        | none => rfl
        | some b0 => rw [hl] at hc; simp at hc
      exact dictLookup_not_mem hnone e h1
    · simp at h1
      exact Or.inl h1

theorem mem_dictDel {β : Type} {m : List (ℤ × β)} {t : ℤ} {e : ℤ × β}
    (h : e ∈ dictDel m t) : e ∈ m ∧ e.1 ≠ t := by
  unfold dictDel at h
  have := List.mem_filter.1 h
  exact ⟨this.1, by simpa using this.2⟩

theorem dictLookup_dictDel_ne {β : Type} {m : List (ℤ × β)} {t t2 : ℤ} (h : t2 ≠ t) :
    dictLookup (dictDel m t) t2 = dictLookup m t2 := by
  unfold dictLookup dictDel
  induction m with
  | nil => rfl
  | cons e m ih =>
    by_cases hk : e.1 = t
    · have hk2 : ¬ (e.1 = t2) := by rw [hk]; exact fun hh => h hh.symm
      rw [List.filter_cons_of_neg (by simpa using hk)]
      rw [List.find?_cons_of_neg _ (by simpa using hk2)]
      exact ih
    · rw [List.filter_cons_of_pos (by simpa using hk)]
      by_cases hk2 : e.1 = t2
      · rw [List.find?_cons_of_pos _ (by simpa using hk2),
          List.find?_cons_of_pos _ (by simpa using hk2)]
      · rw [List.find?_cons_of_neg _ (by simpa using hk2),
          List.find?_cons_of_neg _ (by simpa using hk2)]
        exact ih

theorem find?_map_keyfix {β β2 : Type} (f : ℤ × β → ℤ × β2) (hf : ∀ e, (f e).1 = e.1)
    (m : List (ℤ × β)) (t : ℤ) :
    (m.map f).find? (fun e => decide (e.1 = t)) =
      (m.find? (fun e => decide (e.1 = t))).map f := by
  induction m with
  | nil => rfl
  | cons e m ih =>
    simp only [List.map_cons]
    by_cases hk : e.1 = t
    · rw [List.find?_cons_of_pos _ (by simp [hf e, hk]),
        List.find?_cons_of_pos _ (by simp [hk])]
      rfl
    · rw [List.find?_cons_of_neg _ (by simp [hf e, hk]),
        List.find?_cons_of_neg _ (by simp [hk])]
      exact ih

theorem dictLookup_map_keyfix {β β2 : Type} (f : ℤ × β → ℤ × β2) (hf : ∀ e, (f e).1 = e.1)
    (m : List (ℤ × β)) (t : ℤ) :
    dictLookup (m.map f) t = (m.find? (fun e => decide (e.1 = t))).map (fun e => (f e).2) := by
  unfold dictLookup
  rw [find?_map_keyfix f hf]
  cases m.find? (fun e => decide (e.1 = t)) with
  | none => rfl
  | some e0 => rfl

theorem dictLookup_dictSet_self {β : Type} (m : List (ℤ × β)) (t : ℤ) (b : β) :
    dictLookup (dictSet m t b) t = some b := by
  unfold dictSet
  split_ifs with hc
  · have hf : ∀ e : ℤ × β, ((if e.1 = t then (t, b) else e) : ℤ × β).1 = e.1 := by
      intro e
      split_ifs with hk
      · rw [hk]
      · rfl
    rw [dictLookup_map_keyfix _ hf]
    unfold dictContains dictLookup at hc
    cases hfind : m.find? (fun e => decide (e.1 = t)) with
    | none => rw [hfind] at hc; simp at hc
    | some e0 =>
      have hkey : e0.1 = t := by
        have := List.find?_some hfind
        simpa using this
      simp [hfind, hkey]
  · unfold dictLookup
    unfold dictContains dictLookup at hc
    cases hfind : m.find? (fun e => decide (e.1 = t)) with
    | none =>
      rw [List.find?_append]
      rw [hfind]
      simp
    | some e0 => rw [hfind] at hc; simp at hc

theorem dictLookup_dictSet_ne {β : Type} (m : List (ℤ × β)) (t t2 : ℤ) (b : β) (h : t2 ≠ t) :
    dictLookup (dictSet m t b) t2 = dictLookup m t2 := by
  unfold dictSet
  split_ifs with hc
  · have hf : ∀ e : ℤ × β, ((if e.1 = t then (t, b) else e) : ℤ × β).1 = e.1 := by
      intro e
      split_ifs with hk
      · rw [hk]
      · rfl
    rw [dictLookup_map_keyfix _ hf]
    unfold dictLookup
    cases hfind : m.find? (fun e => decide (e.1 = t2)) with
    | none => simp
    | some e0 =>
      have hkey : e0.1 = t2 := by
        have := List.find?_some hfind
        simpa using this
      have hne : ¬ (e0.1 = t) := by rw [hkey]; exact h
      simp [hne]
  · unfold dictLookup
    rw [List.find?_append]
    cases hfind : m.find? (fun e => decide (e.1 = t2)) with
    | none =>
      simp only [hfind, Option.none_or]
      rw [List.find?_cons_of_neg _ (by simpa using fun hh => h hh.symm)]
      rfl
    | some e0 => simp [hfind]

end PQM

/-!
#### Reachable-state invariants of the scheduler
-/

namespace PQM

/-- The weighted sum of `calculate_priority_score` before `round(_, 2)`. -/
def rawScore (p : PatientNode) : ℚ :=
  PriorityWeights.EMERGENCY * (p.emergency_level : ℚ) +
  PriorityWeights.TRAVEL_ETA * p.travel_eta_mins +
  PriorityWeights.CONSULTATION_TIME * (p.predicted_consult_mins : ℚ) +
  PriorityWeights.WAITING_TIME * p.waiting_time_mins +
  PriorityWeights.ARRIVAL_PROB * (1 - p.arrival_probability)

theorem calc_eq_round2_raw (p : PatientNode) :
    calculate_priority_score p = round2 (rawScore p) := rfl

theorem rawScore_set_waiting (p : PatientNode) (w : ℚ) :
    rawScore { p with waiting_time_mins := w }
      = rawScore p + PriorityWeights.WAITING_TIME * (w - p.waiting_time_mins) := by
  unfold rawScore
  simp only []
  ring

/-- The fields of an emergency-queue entry that keep their dataclass
defaults forever: the copy is created with them at enqueue time and no
operation ever writes to an emergency entry. -/
def frozenEntry (p : PatientNode) : Prop :=
  p.waiting_time_mins = 0 ∧ p.arrival_probability = 1 ∧ p.location = "" ∧
  p.travel_data = {} ∧ p.booking_time = "" ∧ p.expected_arrival = none ∧
  p.actual_arrival = none ∧ p.last_priority_update = "" ∧ p.position_history = []

theorem mkPatientNode_fresh (d : PatientData) (now : String) :
    (mkPatientNode d now).priority_score = calculate_priority_score (mkPatientNode d now) := rfl

theorem mkPatientNode_waiting (d : PatientData) (now : String) :
    (mkPatientNode d now).waiting_time_mins = 0 := rfl

theorem mkPatientNode_arrival (d : PatientData) (now : String) :
    (mkPatientNode d now).arrival_probability = 1 := rfl

theorem mkPatientNode_token (d : PatientData) (now : String) :
    (mkPatientNode d now).token_number = d.token_number := rfl

theorem mkEmergencyNode_frozen (p : PatientNode) : frozenEntry (mkEmergencyNode p) :=
  ⟨rfl, rfl, rfl, rfl, rfl, rfl, rfl, rfl, rfl⟩

theorem mkEmergencyNode_level (p : PatientNode) :
    (mkEmergencyNode p).emergency_level = p.emergency_level := rfl

theorem mkEmergencyNode_score (d : PatientData) (now : String) :
    (mkEmergencyNode (mkPatientNode d now)).priority_score
      = -(calculate_priority_score (mkEmergencyNode (mkPatientNode d now))) := rfl

theorem calc_ignores_score_lpu (p : PatientNode) (x : ℚ) (y : String) :
    calculate_priority_score { p with priority_score := x, last_priority_update := y }
      = calculate_priority_score p := rfl

theorem agedNodeAt_fresh (s : SchedulerState) (e : ℚ) (t : ℤ) (p : PatientNode) :
    (agedNodeAt s e t p).priority_score = calculate_priority_score (agedNodeAt s e t p) := rfl

theorem agedNodeAt_level (s : SchedulerState) (e : ℚ) (t : ℤ) (p : PatientNode) :
    (agedNodeAt s e t p).emergency_level = p.emergency_level := rfl

theorem agedNodeAt_token (s : SchedulerState) (e : ℚ) (t : ℤ) (p : PatientNode) :
    (agedNodeAt s e t p).token_number = p.token_number := rfl

theorem agedNodeAt_waiting (s : SchedulerState) (e : ℚ) (t : ℤ) (p : PatientNode) :
    (agedNodeAt s e t p).waiting_time_mins = (dictLookup s.wait_tracker t).getD 0 + e := rfl

theorem agedNodeAt_score (s : SchedulerState) (e : ℚ) (t : ℤ) (p : PatientNode) :
    (agedNodeAt s e t p).priority_score
      = round2 (rawScore p + PriorityWeights.WAITING_TIME *
          ((dictLookup s.wait_tracker t).getD 0 + e - p.waiting_time_mins)) := by
  have h1 : (agedNodeAt s e t p).priority_score
      = calculate_priority_score
          { p with waiting_time_mins := (dictLookup s.wait_tracker t).getD 0 + e } := rfl
  rw [h1, calc_eq_round2_raw, rawScore_set_waiting]

/-- The invariants every reachable scheduler state satisfies (heap ordering
is handled separately in `heapOK`): scores in the main queue and the token
index are never stale, tier placement is exact, emergency entries are
enqueue-time copies with negated self-consistent scores and default
fields, and the wait tracker mirrors each tracked node's waiting time. -/
structure Inv (s : SchedulerState) : Prop where
  main_fresh : ∀ p ∈ s.main_queue, p.priority_score = calculate_priority_score p
  main_tier : ∀ p ∈ s.main_queue, p.emergency_level ≠ EmergencyLevel.CRITICAL
  emerg_tier : ∀ p ∈ s.emergency_queue, p.emergency_level = EmergencyLevel.CRITICAL
  emerg_score : ∀ p ∈ s.emergency_queue, p.priority_score = -(calculate_priority_score p)
  emerg_frozen : ∀ p ∈ s.emergency_queue, frozenEntry p
  map_fresh : ∀ e ∈ s.patient_map, e.2.priority_score = calculate_priority_score e.2
  map_token : ∀ e ∈ s.patient_map, e.2.token_number = e.1
  sync : ∀ e ∈ s.patient_map, dictLookup s.wait_tracker e.1 = some e.2.waiting_time_mins

/-- Both heaps satisfy the min-heap ordering on their stored scores. -/
def heapOK (s : SchedulerState) : Prop :=
  Heapq.heapInv nodeKey s.main_queue ∧ Heapq.heapInv nodeKey s.emergency_queue

theorem inv_init : Inv {} := by
  constructor <;> intro p hp <;> simp at hp

theorem inv_enqueue (s : SchedulerState) (d : PatientData) (now : String) (hinv : Inv s) :
    Inv (enqueue_patient s d now).1 := by
  unfold enqueue_patient
  set patient := mkPatientNode d now with hpat
  by_cases hcrit : patient.emergency_level = EmergencyLevel.CRITICAL
  · simp only [if_pos hcrit]
    constructor
    · exact hinv.main_fresh
    · exact hinv.main_tier
    · intro p hp
      rcases Heapq.mem_heappush hp with h | h
      · exact hinv.emerg_tier p h
      · rw [h, mkEmergencyNode_level]
        exact hcrit
    · intro p hp
      rcases Heapq.mem_heappush hp with h | h
      · exact hinv.emerg_score p h
      · rw [h]
        exact mkEmergencyNode_score d now
    · intro p hp
      rcases Heapq.mem_heappush hp with h | h
      · exact hinv.emerg_frozen p h
      · rw [h]
        exact mkEmergencyNode_frozen patient
    · intro e he
      rcases mem_dictSet he with h | h
      · rw [h]
        exact mkPatientNode_fresh d now
      · exact hinv.map_fresh e h.1
    · intro e he
      rcases mem_dictSet he with h | h
      · rw [h]
      · exact hinv.map_token e h.1
    · intro e he
      rcases mem_dictSet he with h | h
      · rw [h]
        simp only []
        rw [dictLookup_dictSet_self]
        rw [mkPatientNode_waiting]
      · rw [dictLookup_dictSet_ne _ _ _ _ h.2]
        exact hinv.sync e h.1
  · simp only [if_neg hcrit]
    constructor
    · intro p hp
      rcases Heapq.mem_heappush hp with h | h
      · exact hinv.main_fresh p h
      · rw [h]
        exact mkPatientNode_fresh d now
    · intro p hp
      rcases Heapq.mem_heappush hp with h | h
      · exact hinv.main_tier p h
      · rw [h]
        exact hcrit
    · exact hinv.emerg_tier
    · exact hinv.emerg_score
    · exact hinv.emerg_frozen
    · intro e he
      rcases mem_dictSet he with h | h
      · rw [h]
        exact mkPatientNode_fresh d now
      · exact hinv.map_fresh e h.1
    · intro e he
      rcases mem_dictSet he with h | h
      · rw [h]
      · exact hinv.map_token e h.1
    · intro e he
      rcases mem_dictSet he with h | h
      · rw [h]
        simp only []
        rw [dictLookup_dictSet_self]
        rw [mkPatientNode_waiting]
      · rw [dictLookup_dictSet_ne _ _ _ _ h.2]
        exact hinv.sync e h.1

end PQM

namespace Heapq

/-- A per-element key-preserving map keeps the heap ordering. -/
theorem heapInv_map_congr {α : Type} (k : α → ℚ) (g : α → α) (l : List α)
    (hg : ∀ p ∈ l, k (g p) = k p) (hinv : heapInv k l) : heapInv k (l.map g) := by
  have hk : ∀ i, i < l.length → kAt k (l.map g) i = kAt k l i := by
    intro i hi
    have h1 : (l.map g)[i]? = (l[i]?).map g := List.getElem?_map g l i
    rw [kAt, h1, List.getElem?_eq_getElem hi]
    simp only [Option.map_some']
    rw [kAt, List.getElem?_eq_getElem hi]
    exact hg l[i] (List.getElem_mem hi)
  intro j hj hj0 hrel
  rw [List.length_map] at hj
  have hplt : parentIdx j < j := parentIdx_lt hj0
  rw [hk j hj, hk (parentIdx j) (by omega)]
  exact hinv j hj hj0 hrel

end Heapq

namespace PQM

theorem inv_dequeue (s : SchedulerState) (hinv : Inv s) :
    Inv (dequeue_next_patient s).1 := by
  unfold dequeue_next_patient
  cases hpop : Heapq.heappop nodeKey s.emergency_queue with
  | some pr =>
    rcases pr with ⟨p0, eq2⟩
    simp only []
    have hmset := Heapq.heappop_mset nodeKey s.emergency_queue p0 eq2 hpop
    constructor
    · exact hinv.main_fresh
    · exact hinv.main_tier
    · intro p hp
      exact hinv.emerg_tier p (Heapq.mem_of_mset_pop hmset hp)
    · intro p hp
      exact hinv.emerg_score p (Heapq.mem_of_mset_pop hmset hp)
    · intro p hp
      exact hinv.emerg_frozen p (Heapq.mem_of_mset_pop hmset hp)
    · intro e he
      exact hinv.map_fresh e (mem_dictDel he).1
    · intro e he
      exact hinv.map_token e (mem_dictDel he).1
    · intro e he
      rcases mem_dictDel he with ⟨hmem, hne⟩
      rw [dictLookup_dictDel_ne hne]
      exact hinv.sync e hmem
  | none =>
    cases hpop2 : Heapq.heappop nodeKey s.main_queue with
    | some pr =>
      rcases pr with ⟨patient, mq2⟩
      simp only []
      have hmset := Heapq.heappop_mset nodeKey s.main_queue patient mq2 hpop2
      constructor
      · intro p hp
        exact hinv.main_fresh p (Heapq.mem_of_mset_pop hmset hp)
      · intro p hp
        exact hinv.main_tier p (Heapq.mem_of_mset_pop hmset hp)
      · exact hinv.emerg_tier
      · exact hinv.emerg_score
      · exact hinv.emerg_frozen
      · intro e he
        exact hinv.map_fresh e (mem_dictDel he).1
      · intro e he
        exact hinv.map_token e (mem_dictDel he).1
      · intro e he
        rcases mem_dictDel he with ⟨hmem, hne⟩
        rw [dictLookup_dictDel_ne hne]
        exact hinv.sync e hmem
    | none => exact hinv

theorem inv_remove (s : SchedulerState) (t : ℤ) (hinv : Inv s) :
    Inv (remove_patient s t).1 := by
  unfold remove_patient
  cases hl : dictLookup s.patient_map t with
  | none => exact hinv
  | some patient =>
    simp only []
    by_cases hcrit : patient.emergency_level = EmergencyLevel.CRITICAL
    · simp only [if_pos hcrit]
      constructor
      · exact hinv.main_fresh
      · exact hinv.main_tier
      · intro p hp
        have hp2 := Heapq.mem_of_mset_eq (Heapq.heapify_mset nodeKey _) hp
        exact hinv.emerg_tier p (List.mem_filter.1 hp2).1
      · intro p hp
        have hp2 := Heapq.mem_of_mset_eq (Heapq.heapify_mset nodeKey _) hp
        exact hinv.emerg_score p (List.mem_filter.1 hp2).1
      · intro p hp
        have hp2 := Heapq.mem_of_mset_eq (Heapq.heapify_mset nodeKey _) hp
        exact hinv.emerg_frozen p (List.mem_filter.1 hp2).1
      · intro e he
        exact hinv.map_fresh e (mem_dictDel he).1
      · intro e he
        exact hinv.map_token e (mem_dictDel he).1
      · intro e he
        rcases mem_dictDel he with ⟨hmem, hne⟩
        rw [dictLookup_dictDel_ne hne]
        exact hinv.sync e hmem
    · simp only [if_neg hcrit]
      constructor
      · intro p hp
        have hp2 := Heapq.mem_of_mset_eq (Heapq.heapify_mset nodeKey _) hp
        exact hinv.main_fresh p (List.mem_filter.1 hp2).1
      · intro p hp
        have hp2 := Heapq.mem_of_mset_eq (Heapq.heapify_mset nodeKey _) hp
        exact hinv.main_tier p (List.mem_filter.1 hp2).1
      · exact hinv.emerg_tier
      · exact hinv.emerg_score
      · exact hinv.emerg_frozen
      · intro e he
        exact hinv.map_fresh e (mem_dictDel he).1
      · intro e he
        exact hinv.map_token e (mem_dictDel he).1
      · intro e he
        rcases mem_dictDel he with ⟨hmem, hne⟩
        rw [dictLookup_dictDel_ne hne]
        exact hinv.sync e hmem

theorem inv_update (s : SchedulerState) (t : ℤ) (u : AttrUpdates) (now : String) (hinv : Inv s) :
    Inv (update_patient_attributes s t u now).1 := by
  unfold update_patient_attributes
  cases hl : dictLookup s.patient_map t with
  | none => exact hinv
  | some patient =>
    simp only [reheapify_queue]
    have hmem0 : (t, patient) ∈ s.patient_map := dictLookup_mem hl
    have htok : patient.token_number = t := hinv.map_token (t, patient) hmem0
    constructor
    · intro p hp
      have hp2 := Heapq.mem_of_mset_eq (Heapq.heapify_mset nodeKey _) hp
      rcases List.mem_map.1 hp2 with ⟨q, hq, hqe⟩
      by_cases hqp : q = patient
      · rw [if_pos hqp] at hqe
        rw [← hqe]
        exact calc_ignores_score_lpu _ _ _ |>.symm
      · rw [if_neg hqp] at hqe
        rw [← hqe]
        exact hinv.main_fresh q hq
    · intro p hp
      have hp2 := Heapq.mem_of_mset_eq (Heapq.heapify_mset nodeKey _) hp
      rcases List.mem_map.1 hp2 with ⟨q, hq, hqe⟩
      by_cases hqp : q = patient
      · rw [if_pos hqp] at hqe
        rw [← hqe]
        have : q.emergency_level ≠ EmergencyLevel.CRITICAL := hinv.main_tier q hq
        rw [hqp] at this
        exact this
      · rw [if_neg hqp] at hqe
        rw [← hqe]
        exact hinv.main_tier q hq
    · intro p hp
      have hp2 := Heapq.mem_of_mset_eq (Heapq.heapify_mset nodeKey _) hp
      exact hinv.emerg_tier p hp2
    · intro p hp
      have hp2 := Heapq.mem_of_mset_eq (Heapq.heapify_mset nodeKey _) hp
      exact hinv.emerg_score p hp2
    · intro p hp
      have hp2 := Heapq.mem_of_mset_eq (Heapq.heapify_mset nodeKey _) hp
      exact hinv.emerg_frozen p hp2
    · intro e he
      rcases mem_dictSet he with h | h
      · rw [h]
        exact (calc_ignores_score_lpu _ _ _).symm
      · exact hinv.map_fresh e h.1
    · intro e he
      rcases mem_dictSet he with h | h
      · rw [h]
        exact htok
      · exact hinv.map_token e h.1
    · intro e he
      rcases mem_dictSet he with h | h
      · rw [h]
        simp only []
        exact hinv.sync (t, patient) hmem0
      · exact hinv.sync e h.1

theorem inv_aging (s : SchedulerState) (el : ℚ) (hinv : Inv s) :
    Inv (apply_aging s el) := by
  unfold apply_aging
  simp only []
  have hkeyfix : ∀ e : ℤ × ℚ,
      ((if dictContains s.patient_map e.1 then (e.1, e.2 + el) else e) : ℤ × ℚ).1 = e.1 := by
    intro e
    split_ifs <;> rfl
  have hs1 : Inv
      { s with
        patient_map := s.patient_map.map (fun e => (e.1, agedNodeAt s el e.1 e.2))
        wait_tracker := s.wait_tracker.map (fun e =>
          if dictContains s.patient_map e.1 then (e.1, e.2 + el) else e)
        main_queue := s.main_queue.map (fun p =>
          if dictLookup s.patient_map p.token_number = some p
          then agedNodeAt s el p.token_number p else p) } := by
    constructor
    · intro p hp
      rcases List.mem_map.1 hp with ⟨q, hq, hqe⟩
      by_cases hcase : dictLookup s.patient_map q.token_number = some q
      · rw [if_pos hcase] at hqe
        rw [← hqe]
        exact agedNodeAt_fresh s el q.token_number q
      · rw [if_neg hcase] at hqe
        rw [← hqe]
        exact hinv.main_fresh q hq
    · intro p hp
      rcases List.mem_map.1 hp with ⟨q, hq, hqe⟩
      by_cases hcase : dictLookup s.patient_map q.token_number = some q
      · rw [if_pos hcase] at hqe
        rw [← hqe, agedNodeAt_level]
        exact hinv.main_tier q hq
      · rw [if_neg hcase] at hqe
        rw [← hqe]
        exact hinv.main_tier q hq
    · exact hinv.emerg_tier
    · exact hinv.emerg_score
    · exact hinv.emerg_frozen
    · intro e he
      rcases List.mem_map.1 he with ⟨e0, he0, he0e⟩
      rw [← he0e]
      exact agedNodeAt_fresh s el e0.1 e0.2
    · intro e he
      rcases List.mem_map.1 he with ⟨e0, he0, he0e⟩
      rw [← he0e]
      simp only [agedNodeAt_token]
      exact hinv.map_token e0 he0
    · intro e he
      rcases List.mem_map.1 he with ⟨e0, he0, he0e⟩
      rw [← he0e]
      simp only []
      have hsync0 := hinv.sync e0 he0
      have hfind := find?_of_dictLookup hsync0
      rw [dictLookup_map_keyfix _ hkeyfix, hfind]
      simp only [Option.map_some']
      have hcont : dictContains s.patient_map e0.1 = true := by
        unfold dictContains dictLookup
        cases hfind2 : List.find? (fun e => decide (e.1 = e0.1)) s.patient_map with
        | none =>
          exfalso
          have := List.find?_eq_none.1 hfind2 e0 he0
          simp at this
        | some e1 => simp [hfind2]
      rw [agedNodeAt_waiting, hsync0]
      simp [hcont]
  split_ifs with hboost
  · -- a reheapify permutes both queues and bumps a counter
    simp only [reheapify_queue]
    constructor
    · intro p hp
      exact hs1.main_fresh p (Heapq.mem_of_mset_eq (Heapq.heapify_mset nodeKey _) hp)
    · intro p hp
      exact hs1.main_tier p (Heapq.mem_of_mset_eq (Heapq.heapify_mset nodeKey _) hp)
    · intro p hp
      exact hs1.emerg_tier p (Heapq.mem_of_mset_eq (Heapq.heapify_mset nodeKey _) hp)
    · intro p hp
      exact hs1.emerg_score p (Heapq.mem_of_mset_eq (Heapq.heapify_mset nodeKey _) hp)
    · intro p hp
      exact hs1.emerg_frozen p (Heapq.mem_of_mset_eq (Heapq.heapify_mset nodeKey _) hp)
    · exact hs1.map_fresh
    · exact hs1.map_token
    · exact hs1.sync
  · exact hs1

end PQM

namespace PQM

theorem heapOK_enqueue (s : SchedulerState) (d : PatientData) (now : String)
    (hok : heapOK s) : heapOK (enqueue_patient s d now).1 := by
  unfold enqueue_patient
  set patient := mkPatientNode d now with hpat
  by_cases hcrit : patient.emergency_level = EmergencyLevel.CRITICAL
  · simp only [if_pos hcrit]
    exact ⟨hok.1, Heapq.heappush_heapInv nodeKey s.emergency_queue _ hok.2⟩
  · simp only [if_neg hcrit]
    exact ⟨Heapq.heappush_heapInv nodeKey s.main_queue _ hok.1, hok.2⟩

theorem heapOK_dequeue (s : SchedulerState) (hok : heapOK s) :
    heapOK (dequeue_next_patient s).1 := by
  unfold dequeue_next_patient
  cases hpop : Heapq.heappop nodeKey s.emergency_queue with
  | some pr =>
    rcases pr with ⟨p0, eq2⟩
    have hne : s.emergency_queue ≠ [] := by
      intro hnil
      rw [hnil, Heapq.heappop_nil] at hpop
      exact Option.noConfusion hpop
    rcases Heapq.heappop_spec nodeKey s.emergency_queue hne hok.2 with ⟨a, l2, hp2, _, hinv2, _⟩
    rw [hpop] at hp2
    have : a = p0 ∧ l2 = eq2 := by
      cases hp2
      exact ⟨rfl, rfl⟩
    exact ⟨hok.1, this.2 ▸ hinv2⟩
  | none =>
    cases hpop2 : Heapq.heappop nodeKey s.main_queue with
    | some pr =>
      rcases pr with ⟨patient, mq2⟩
      have hne : s.main_queue ≠ [] := by
        intro hnil
        rw [hnil, Heapq.heappop_nil] at hpop2
        exact Option.noConfusion hpop2
      rcases Heapq.heappop_spec nodeKey s.main_queue hne hok.1 with ⟨a, l2, hp2, _, hinv2, _⟩
      rw [hpop2] at hp2
      have : a = patient ∧ l2 = mq2 := by
        cases hp2
        exact ⟨rfl, rfl⟩
      exact ⟨this.2 ▸ hinv2, hok.2⟩
    | none => exact hok

theorem heapOK_remove (s : SchedulerState) (t : ℤ) (hok : heapOK s) :
    heapOK (remove_patient s t).1 := by
  unfold remove_patient
  cases hl : dictLookup s.patient_map t with
  | none => exact hok
  | some patient =>
    simp only []
    split_ifs with hcrit
    · exact ⟨hok.1, Heapq.heapify_heapInv nodeKey _⟩
    · exact ⟨Heapq.heapify_heapInv nodeKey _, hok.2⟩

theorem heapOK_update (s : SchedulerState) (t : ℤ) (u : AttrUpdates) (now : String)
    (hok : heapOK s) : heapOK (update_patient_attributes s t u now).1 := by
  unfold update_patient_attributes
  cases hl : dictLookup s.patient_map t with
  | none => exact hok
  | some patient =>
    simp only [reheapify_queue]
    exact ⟨Heapq.heapify_heapInv nodeKey _, Heapq.heapify_heapInv nodeKey _⟩

theorem heapOK_aging (s : SchedulerState) (el : ℚ) (hel : 0 ≤ el) (hinv : Inv s)
    (hok : heapOK s) : heapOK (apply_aging s el) := by
  unfold apply_aging
  simp only []
  split_ifs with hboost
  · simp only [reheapify_queue]
    exact ⟨Heapq.heapify_heapInv nodeKey _, Heapq.heapify_heapInv nodeKey _⟩
  · -- no score dropped, so no reheapify ran: every replaced main-queue node
    -- keeps its (recomputed, unchanged) score and the ordering is untouched
    have hzero : (s.patient_map.filter (fun e =>
        decide ((agedNodeAt s el e.1 e.2).priority_score < e.2.priority_score))).length = 0 := by
      omega
    have hempty := List.length_eq_zero.1 hzero
    have hnone := List.filter_eq_nil_iff.1 hempty
    refine ⟨Heapq.heapInv_map_congr nodeKey _ s.main_queue ?_ hok.1, hok.2⟩
    intro p hp
    by_cases hcase : dictLookup s.patient_map p.token_number = some p
    · rw [if_pos hcase]
      have hmem : (p.token_number, p) ∈ s.patient_map := dictLookup_mem hcase
      have hnotlt := hnone (p.token_number, p) hmem
      have hge : ¬ (agedNodeAt s el p.token_number p).priority_score < p.priority_score := by
        simpa using hnotlt
      have hfresh : p.priority_score = calculate_priority_score p :=
        hinv.map_fresh (p.token_number, p) hmem
      have hsync : dictLookup s.wait_tracker p.token_number = some p.waiting_time_mins :=
        hinv.sync (p.token_number, p) hmem
      have hle : (agedNodeAt s el p.token_number p).priority_score ≤ p.priority_score := by
        rw [agedNodeAt_score, hsync, hfresh, calc_eq_round2_raw]
        apply round2_mono
        have : PriorityWeights.WAITING_TIME *
            ((some p.waiting_time_mins).getD 0 + el - p.waiting_time_mins)
            = -3 * el := by
          simp only [PriorityWeights.WAITING_TIME, Option.getD_some]
          ring
        rw [this]
        linarith
      unfold nodeKey
      exact le_antisymm hle (not_lt.1 hge)
    · rw [if_neg hcase]

theorem inv_applyOp (s : SchedulerState) (op : SchedOp) (hinv : Inv s) :
    Inv (applyOp s op) := by
  cases op with
  | enq d now => exact inv_enqueue s d now hinv
  | deq => exact inv_dequeue s hinv
  | rem t => exact inv_remove s t hinv
  | upd t u now => exact inv_update s t u now hinv
  | age e => exact inv_aging s e hinv

/-- Ticks never run with a negative elapsed time: the aging engine passes
wall-clock intervals. -/
def opOK : SchedOp → Prop
  | .age e => 0 ≤ e
  | _ => True

theorem heapOK_applyOp (s : SchedulerState) (op : SchedOp) (hinv : Inv s) (hop : opOK op)
    (hok : heapOK s) : heapOK (applyOp s op) := by
  cases op with
  | enq d now => exact heapOK_enqueue s d now hok
  | deq => exact heapOK_dequeue s hok
  | rem t => exact heapOK_remove s t hok
  | upd t u now => exact heapOK_update s t u now hok
  | age e => exact heapOK_aging s e hop hinv hok

theorem inv_foldl : ∀ (ops : List SchedOp) (s : SchedulerState), Inv s →
    Inv (ops.foldl applyOp s) := by
  intro ops
  induction ops with
  | nil => intro s hs; exact hs
  | cons op ops ih =>
    intro s hs
    exact ih (applyOp s op) (inv_applyOp s op hs)

/-- Every reachable scheduler state satisfies the structural invariants. -/
theorem run_inv (ops : List SchedOp) : Inv (run ops) := inv_foldl ops {} inv_init

theorem heapOK_foldl : ∀ (ops : List SchedOp) (s : SchedulerState), Inv s → heapOK s →
    (∀ op ∈ ops, opOK op) → heapOK (ops.foldl applyOp s) := by
  intro ops
  induction ops with
  | nil => intro s _ hok _; exact hok
  | cons op ops ih =>
    intro s hs hok hops
    exact ih (applyOp s op) (inv_applyOp s op hs)
      (heapOK_applyOp s op hs (hops op (by simp)) hok)
      (fun o ho => hops o (by simp [ho]))

theorem heapOK_init : heapOK {} := by
  constructor <;> intro j hj <;> simp at hj

/-- Every state reachable with nonnegative aging intervals keeps both heaps
ordered. -/
theorem run_heapOK (ops : List SchedOp) (h : ∀ op ∈ ops, opOK op) : heapOK (run ops) :=
  heapOK_foldl ops {} inv_init heapOK_init h

end PQM

/-!
### The A* ETA estimator

A model of `tools/astar_eta_calculator.py`.  The haversine formula and the
distance heuristic are transcendental, so they live over `ℝ` (coordinates
stay rational, as the source's literals are).  `_astar_search` is modelled
at its interface — it returns either the success dict built at its goal
check (with `method = "astar_graph"`) or `path_found: False` — and
`calculate_eta`'s fallback ladder over that interface is translated
verbatim.
-/

namespace ETA

/-- `math.radians`. -/
noncomputable def radians (x : ℚ) : ℝ := (x : ℝ) * Real.pi / 180

/-- `math.atan2` on the reals. -/
noncomputable def atan2 (y x : ℝ) : ℝ :=
  if 0 < x then Real.arctan (y / x)
  else if x < 0 ∧ 0 ≤ y then Real.arctan (y / x) + Real.pi
  else if x < 0 ∧ y < 0 then Real.arctan (y / x) - Real.pi
  else if x = 0 ∧ 0 < y then Real.pi / 2
  else if x = 0 ∧ y < 0 then -(Real.pi / 2)
  else 0

/-- `AStarETACalculator.haversine_distance` (km). -/
noncomputable def haversine_distance (lat1 lon1 lat2 lon2 : ℚ) : ℝ :=
  let R : ℝ := 6371
  let lat1_rad := radians lat1
  let lat2_rad := radians lat2
  let delta_lat := radians (lat2 - lat1)
  let delta_lon := radians (lon2 - lon1)
  let a := Real.sin (delta_lat / 2) ^ 2 +
    Real.cos lat1_rad * Real.cos lat2_rad * Real.sin (delta_lon / 2) ^ 2
  let c := 2 * atan2 (Real.sqrt a) (Real.sqrt (1 - a))
  R * c

/-- `AStarETACalculator.distance_to_time_heuristic`: minutes at a fixed
30 km/h. -/
noncomputable def distance_to_time_heuristic (distance_km : ℝ) : ℝ :=
  (distance_km / 30) * 60

/-- `RoadNetworkGraph.get_traffic_multiplier`: first matching pattern of
the insertion-ordered `traffic_patterns` dict, `1.0` when none matches
(the `night` window wraps around midnight). -/
def get_traffic_multiplier (current_hour : ℤ) : ℚ :=
  if 8 ≤ current_hour ∧ current_hour < 11 then 1.5
  else if 17 ≤ current_hour ∧ current_hour < 20 then 1.6
  else if 12 ≤ current_hour ∧ current_hour < 14 then 1.3
  else if 22 ≤ current_hour ∨ current_hour < 6 then 0.8
  else 1

/-- The adjacency list of `RoadNetworkGraph`: node to
`(neighbor_lat, neighbor_lon, weight_mins)` lists, insertion ordered. -/
abbrev Adjacency := List ((ℚ × ℚ) × List (ℚ × ℚ × ℚ))

def adjLookup (g : Adjacency) (n : ℚ × ℚ) : Option (List (ℚ × ℚ × ℚ)) :=
  (g.find? (fun e => decide (e.1 = n))).map Prod.snd

def adjInsertEmpty (g : Adjacency) (n : ℚ × ℚ) : Adjacency :=
  if (adjLookup g n).isSome then g else g ++ [(n, [])]

def adjAppend (g : Adjacency) (n : ℚ × ℚ) (v : ℚ × ℚ × ℚ) : Adjacency :=
  g.map (fun e => if e.1 = n then (e.1, e.2 ++ [v]) else e)

/-- `RoadNetworkGraph.add_edge`: bidirectional, with empty-list insertion
for unseen nodes. -/
def add_edge (g : Adjacency) (from_lat from_lon to_lat to_lon base_time_mins : ℚ) : Adjacency :=
  let g1 := adjInsertEmpty g (from_lat, from_lon)
  let g2 := adjInsertEmpty g1 (to_lat, to_lon)
  let g3 := adjAppend g2 (from_lat, from_lon) (to_lat, to_lon, base_time_mins)
  adjAppend g3 (to_lat, to_lon) (from_lat, from_lon, base_time_mins)

def get_neighbors (g : Adjacency) (lat lon : ℚ) : List (ℚ × ℚ × ℚ) :=
  (adjLookup g (lat, lon)).getD []

def bandra : ℚ × ℚ := (19.0596, 72.8295)

def andheri : ℚ × ℚ := (19.1136, 72.8697)

def worli : ℚ × ℚ := (19.0176, 72.8120)

def dadar : ℚ × ℚ := (19.0186, 72.8481)

def churchgate : ℚ × ℚ := (18.9322, 72.8264)

def lower_parel : ℚ × ℚ := (19.0008, 72.8289)

def kurla : ℚ × ℚ := (19.0728, 72.8826)

/-- The edge list of `_init_mumbai_graph`, in source order. -/
def mumbaiEdges : List ((ℚ × ℚ) × (ℚ × ℚ) × ℚ) :=
  [(bandra, andheri, 15), (bandra, worli, 12), (bandra, dadar, 10),
   (worli, lower_parel, 8), (worli, churchgate, 15), (dadar, lower_parel, 10),
   (dadar, kurla, 12), (andheri, kurla, 10), (lower_parel, churchgate, 12)]

/-- The demo road network built by `_init_mumbai_graph`. -/
def mumbaiGraph : Adjacency :=
  mumbaiEdges.foldl (fun g e => add_edge g e.1.1 e.1.2 e.2.1.1 e.2.1.2 e.2.2) []

/-- The base travel time the graph stores on the edge from `a` to `b`. -/
def edgeTime (g : Adjacency) (a b : ℚ × ℚ) : Option ℚ :=
  ((get_neighbors g a.1 a.2).find? (fun e => decide (e.1 = b.1 ∧ e.2.1 = b.2))).map
    (fun e => e.2.2)

/-- The traffic-scaled travel time along a node path, exactly the cost A*
accumulates (`edge_cost = base_time * traffic_multiplier`); `none` when a
hop is not an edge of the graph. -/
def pathTime (g : Adjacency) (mult : ℚ) : List (ℚ × ℚ) → Option ℚ
  | [] => none
  | [_] => some 0
  | a :: b :: rest =>
    match edgeTime g a b, pathTime g mult (b :: rest) with
    | some w, some c => some (mult * w + c)
    | _, _ => none

/-- The fields of the success dict `_astar_search` returns at its goal
check; its `method` field is always the literal `"astar_graph"`. -/
structure AStarSuccess where
  travel_time_mins : ℝ
  distance_km : ℝ
  path : List (ℚ × ℚ)
  traffic_multiplier : ℚ
  iterations : ℕ

/-- The result dict of `calculate_eta` (fields absent from a fallback dict
are `none`). -/
structure EtaResult where
  path_found : Bool
  travel_time_mins : ℝ
  distance_km : ℝ
  path : List (ℚ × ℚ)
  method : String
  traffic_multiplier : Option ℚ := none
  iterations : Option ℕ := none

def AStarSuccess.toResult (r : AStarSuccess) : EtaResult :=
  { path_found := true
    travel_time_mins := r.travel_time_mins
    distance_km := r.distance_km
    path := r.path
    method := "astar_graph"
    traffic_multiplier := some r.traffic_multiplier
    iterations := some r.iterations }

/-- What `_astar_search` hands back to `calculate_eta`: a success dict or
`path_found: False`. -/
abbrev AStarOutcome := Option AStarSuccess

/-- The two keys `_fallback_to_api` reads from the free-maps response. -/
structure ApiResult where
  duration_minutes : Option ℚ := none
  distance_km : Option ℚ := none

/-- The external `maps_service.calculate_distance_time` call: a response
dict, or an exception (any `Exception` is caught). -/
abbrev ApiOutcome := Except String ApiResult

/-- `_fallback_to_api`: the external router inside `try`, the straight-line
haversine estimate as the `except` arm. -/
noncomputable def fallback_to_api (from_lat from_lon to_lat to_lon : ℚ)
    (api : ApiOutcome) : EtaResult :=
  match api with
  | .ok result =>
    { path_found := true
      travel_time_mins := ((result.duration_minutes.getD 20 : ℚ) : ℝ)
      distance_km := ((result.distance_km.getD 10 : ℚ) : ℝ)
      path := []
      method := "free_maps_api" }
  | .error _ =>
    let distance_km := haversine_distance from_lat from_lon to_lat to_lon
    { path_found := true
      travel_time_mins := distance_to_time_heuristic distance_km
      distance_km := distance_km
      path := []
      method := "haversine_estimate" }

/-- `calculate_eta`: return the A* result when a path was found, otherwise
fall back. -/
noncomputable def calculate_eta (from_lat from_lon to_lat to_lon : ℚ)
    (astar : AStarOutcome) (api : ApiOutcome) : EtaResult :=
  match astar with
  | some r => r.toResult
  | none => fallback_to_api from_lat from_lon to_lat to_lon api

/-- A lower bound on the haversine output, through the
`atan2`-of-square-roots form: if the `a` term of the formula is `x + y`
with both parts nonnegative, their sum below `1`, and `x` at least `B ^ 2`,
then the distance is at least `6371 * (2 * B)`. -/
theorem haversine_core_ge (x y : ℝ) (hx : 0 ≤ x) (hy : 0 ≤ y) (hxy : x + y < 1) (B : ℝ)
    (hB : 0 ≤ B) (hBle : B ^ 2 ≤ x) :
    6371 * (2 * B) ≤ 6371 * (2 * atan2 (Real.sqrt (x + y)) (Real.sqrt (1 - (x + y)))) := by
  have ha0 : 0 ≤ x + y := by linarith
  have ha1 : x + y < 1 := hxy
  have hsq : 0 < Real.sqrt (1 - (x + y)) := Real.sqrt_pos.2 (by linarith)
  have hat : atan2 (Real.sqrt (x + y)) (Real.sqrt (1 - (x + y)))
      = Real.arctan (Real.sqrt (x + y) / Real.sqrt (1 - (x + y))) := by
    unfold atan2
    rw [if_pos hsq]
  have hsa1 : Real.sqrt (x + y) < 1 := by
    have := Real.sqrt_lt_sqrt ha0 ha1
    rwa [Real.sqrt_one] at this
  have hsann : 0 ≤ Real.sqrt (x + y) := Real.sqrt_nonneg _
  have harc : Real.arctan (Real.sqrt (x + y) / Real.sqrt (1 - (x + y)))
      = Real.arcsin (Real.sqrt (x + y)) := by
    have h1 := Real.arcsin_eq_arctan
      (show Real.sqrt (x + y) ∈ Set.Ioo (-1 : ℝ) 1 from ⟨by linarith, hsa1⟩)
    rw [Real.sq_sqrt ha0] at h1
    exact h1.symm
  have harcge : Real.sqrt (x + y) ≤ Real.arcsin (Real.sqrt (x + y)) := by
    have hnn : 0 ≤ Real.arcsin (Real.sqrt (x + y)) := Real.arcsin_nonneg.2 hsann
    have hs := Real.sin_arcsin (by linarith : (-1 : ℝ) ≤ Real.sqrt (x + y)) (le_of_lt hsa1)
    calc Real.sqrt (x + y) = Real.sin (Real.arcsin (Real.sqrt (x + y))) := hs.symm
      _ ≤ Real.arcsin (Real.sqrt (x + y)) := Real.sin_le hnn
  have hBsqrt : B ≤ Real.sqrt (x + y) := by
    have h1 : B ^ 2 ≤ x + y := by linarith
    calc B = Real.sqrt (B ^ 2) := by rw [Real.sqrt_sq hB]
      _ ≤ Real.sqrt (x + y) := Real.sqrt_le_sqrt h1
  rw [hat, harc]
  nlinarith [harcge, hBsqrt]

set_option maxHeartbeats 2000000

/-- On the worli → churchgate pair the heuristic exceeds 15 minutes: the
latitude gap is 0.0854°, `sin t > t - t^3/4` puts the `a` term above
`0.0007 ^ 2`, so the haversine distance exceeds `12742 * 0.0007 > 8.9` km,
which converts to more than 17.8 minutes at 30 km/h. -/
theorem heuristic_worli_churchgate_gt :
    (15 : ℝ) < distance_to_time_heuristic (haversine_distance 19.0176 72.8120 18.9322 72.8264) := by
  have hπl : (3.141592 : ℝ) < Real.pi := Real.pi_gt_d6
  have hπu : Real.pi < 3.15 := Real.pi_lt_d2
  have hd : haversine_distance 19.0176 72.8120 18.9322 72.8264
      = 6371 * (2 * atan2
          (Real.sqrt (Real.sin (radians (18.9322 - 19.0176) / 2) ^ 2 +
            Real.cos (radians 19.0176) * Real.cos (radians 18.9322) *
              Real.sin (radians (72.8264 - 72.8120) / 2) ^ 2))
          (Real.sqrt (1 - (Real.sin (radians (18.9322 - 19.0176) / 2) ^ 2 +
            Real.cos (radians 19.0176) * Real.cos (radians 18.9322) *
              Real.sin (radians (72.8264 - 72.8120) / 2) ^ 2)))) := rfl
  set x : ℝ := Real.sin (radians (18.9322 - 19.0176) / 2) ^ 2 with hxdef
  set y : ℝ := Real.cos (radians 19.0176) * Real.cos (radians 18.9322) *
    Real.sin (radians (72.8264 - 72.8120) / 2) ^ 2 with hydef
  have hdphi : radians (18.9322 - 19.0176) / 2 = -(0.0854 * Real.pi / 360) := by
    unfold radians
    push_cast
    ring
  have hdlam : radians (72.8264 - 72.8120) / 2 = 0.0144 * Real.pi / 360 := by
    unfold radians
    push_cast
    ring
  have ht1 : (0.000745 : ℝ) < 0.0854 * Real.pi / 360 := by nlinarith
  have ht2 : (0.0854 : ℝ) * Real.pi / 360 < 0.00075 := by nlinarith
  have hu2 : (0.0144 : ℝ) * Real.pi / 360 < 0.000126 := by nlinarith
  have hu1 : (0 : ℝ) < 0.0144 * Real.pi / 360 := by nlinarith
  have hphi1 : radians 19.0176 = 19.0176 * Real.pi / 180 := by
    unfold radians
    push_cast
    ring
  have hphi2 : radians 18.9322 = 18.9322 * Real.pi / 180 := by
    unfold radians
    push_cast
    ring
  have hc1 : 0 ≤ Real.cos (radians 19.0176) := by
    apply Real.cos_nonneg_of_neg_pi_div_two_le_of_le
    · rw [hphi1]; nlinarith
    · rw [hphi1]; nlinarith
  have hc2 : 0 ≤ Real.cos (radians 18.9322) := by
    apply Real.cos_nonneg_of_neg_pi_div_two_le_of_le
    · rw [hphi2]; nlinarith
    · rw [hphi2]; nlinarith
  have hx0 : 0 ≤ x := sq_nonneg _
  have hy0 : 0 ≤ y := mul_nonneg (mul_nonneg hc1 hc2) (sq_nonneg _)
  have hxle : x ≤ (0.00075 : ℝ) ^ 2 := by
    rw [hxdef, hdphi]
    have := Real.sin_sq_le_sq (x := -(0.0854 * Real.pi / 360))
    nlinarith [this]
  have hyle : y ≤ (0.000126 : ℝ) ^ 2 := by
    rw [hydef, hdlam]
    have hs := Real.sin_sq_le_sq (x := 0.0144 * Real.pi / 360)
    have hcc : Real.cos (radians 19.0176) * Real.cos (radians 18.9322) ≤ 1 :=
      mul_le_one₀ (Real.cos_le_one _) hc2 (Real.cos_le_one _)
    nlinarith [sq_nonneg (Real.sin (0.0144 * Real.pi / 360)), hs, hu1, hu2,
      mul_nonneg hc1 hc2]
  have hxy : x + y < 1 := by nlinarith
  have hsin_lb : (0.0007 : ℝ) ^ 2 ≤ x := by
    rw [hxdef, hdphi]
    have hcube := Real.sin_gt_sub_cube (x := 0.0854 * Real.pi / 360) (by nlinarith) (by nlinarith)
    have h3a : (0.0854 * Real.pi / 360) ^ 2 < (0.00075 : ℝ) ^ 2 := by nlinarith
    have h3b : (0.0854 * Real.pi / 360) ^ 3 < (0.00075 : ℝ) ^ 3 := by nlinarith
    have hs : (0.0007 : ℝ) < Real.sin (0.0854 * Real.pi / 360) := by nlinarith
    have : Real.sin (-(0.0854 * Real.pi / 360)) = -Real.sin (0.0854 * Real.pi / 360) :=
      Real.sin_neg _
    rw [this]
    nlinarith [hs]
  have hcore := haversine_core_ge x y hx0 hy0 hxy 0.0007 (by norm_num) hsin_lb
  rw [hd]
  unfold distance_to_time_heuristic
  nlinarith [hcore]

/-- C5: the A* heuristic is NOT admissible on the demo graph.  At hour 6
the traffic multiplier is `1.0`, the true remaining travel time from worli
to churchgate is the direct 15-minute edge, yet the heuristic
`distance_to_time_heuristic (haversine_distance ...)` on the worli and
churchgate coordinates exceeds 15 minutes — it overestimates, so the
admissibility premise of the claim (and hence the A* = Dijkstra
optimality argument built on it) fails on the program's own demo graph. -/
theorem heuristic_inadmissible_worli_churchgate :
    get_traffic_multiplier 6 = 1 ∧
    pathTime mumbaiGraph 1 [worli, churchgate] = some 15 ∧
    worli = (19.0176, 72.8120) ∧ churchgate = (18.9322, 72.8264) ∧
    (15 : ℝ) < distance_to_time_heuristic (haversine_distance 19.0176 72.8120 18.9322 72.8264) := by
  refine ⟨by norm_num [get_traffic_multiplier], ?_, rfl, rfl,
    heuristic_worli_churchgate_gt⟩
  norm_num [pathTime, edgeTime, get_neighbors, adjLookup, mumbaiGraph, mumbaiEdges,
    add_edge, adjInsertEmpty, adjAppend, worli, churchgate, bandra, andheri, dadar,
    lower_parel, kurla, List.find?]

set_option maxHeartbeats 200000

end ETA

/-!
### Concrete scenarios

Named patient records and the states the scheduler reaches on them; used
to instantiate the general theorems and to exhibit concrete behaviour.
The small `Heapq` evaluation lemmas below unfold one sift step at a time,
so that concrete heaps of one or two elements compute by rewriting.
-/

namespace Heapq

theorem siftdown_self {α : Type} (k : α → ℚ) (p : ℕ) (x : α) (l : List α) :
    siftdown k p x p l = l.set p x := by
  unfold siftdown
  rw [if_neg (lt_irrefl p)]

theorem siftdown_stop {α : Type} (k : α → ℚ) (s : ℕ) (x : α) (pos : ℕ) (l : List α)
    (parent : α) (hlt : s < pos) (hp : l[parentIdx pos]? = some parent)
    (hk : ¬ k x < k parent) :
    siftdown k s x pos l = l.set pos x := by
  unfold siftdown
  rw [if_pos hlt, hp]
  show (if k x < k parent then siftdown k s x (parentIdx pos) (l.set pos parent)
    else l.set pos x) = l.set pos x
  rw [if_neg hk]

theorem siftdown_up {α : Type} (k : α → ℚ) (s : ℕ) (x : α) (pos : ℕ) (l : List α)
    (parent : α) (hlt : s < pos) (hp : l[parentIdx pos]? = some parent)
    (hk : k x < k parent) :
    siftdown k s x pos l = siftdown k s x (parentIdx pos) (l.set pos parent) := by
  conv_lhs => unfold siftdown
  rw [if_pos hlt, hp]
  show (if k x < k parent then siftdown k s x (parentIdx pos) (l.set pos parent)
    else l.set pos x) = siftdown k s x (parentIdx pos) (l.set pos parent)
  rw [if_pos hk]

theorem heappush_nil {α : Type} (k : α → ℚ) (x : α) : heappush k [] x = [x] := by
  unfold heappush
  show siftdown k 0 x 0 [x] = [x]
  rw [siftdown_self]
  rfl

theorem heappush_one_lt {α : Type} (k : α → ℚ) (x y : α) (h : k y < k x) :
    heappush k [x] y = [y, x] := by
  unfold heappush
  show siftdown k 0 y 1 [x, y] = [y, x]
  rw [siftdown_up k 0 y 1 [x, y] x (by norm_num) rfl h]
  show siftdown k 0 y 0 [x, x] = [y, x]
  rw [siftdown_self]
  rfl

theorem heappush_one_ge {α : Type} (k : α → ℚ) (x y : α) (h : ¬ k y < k x) :
    heappush k [x] y = [x, y] := by
  unfold heappush
  show siftdown k 0 y 1 [x, y] = [x, y]
  rw [siftdown_stop k 0 y 1 [x, y] x (by norm_num) rfl h]
  rfl

theorem siftup_single {α : Type} (k : α → ℚ) (x : α) : siftup k [x] 0 = [x] := by
  have hloop : siftupLoop k [x] 0 = ([x], 0) := by
    unfold siftupLoop
    rw [dif_neg (by norm_num : ¬ 2 * 0 + 1 < ([x] : List α).length)]
  show siftdown k 0 x (siftupLoop k [x] 0).2
    ((siftupLoop k [x] 0).1.set (siftupLoop k [x] 0).2 x) = [x]
  rw [hloop]
  show siftdown k 0 x 0 ([x].set 0 x) = [x]
  rw [siftdown_self]
  rfl

theorem heappop_pair {α : Type} (k : α → ℚ) (x y : α) :
    heappop k [x, y] = some (x, [y]) := by
  show some (x, siftup k [y] 0) = some (x, [y])
  rw [siftup_single]

end Heapq

namespace PQM

/-- Scenario patient A: urgency 2, travel 25, consult 12. -/
def dataA : PatientData :=
  { token_number := 1
    name := "Patient A"
    contact_number := ""
    symptoms_analysis := { urgency_score := some 2, estimated_consultation_mins := some 12 }
    travel_data := { traffic_duration_mins := some 25 } }

/-- Scenario patient B: urgency 9, travel 10, consult 30. -/
def dataB : PatientData :=
  { token_number := 2
    name := "Patient B"
    contact_number := ""
    symptoms_analysis := { urgency_score := some 9, estimated_consultation_mins := some 30 }
    travel_data := { traffic_duration_mins := some 10 } }

/-- Scenario patient C: urgency 5, travel 15, consult 15. -/
def dataC : PatientData :=
  { token_number := 3
    name := "Patient C"
    contact_number := ""
    symptoms_analysis := { urgency_score := some 5, estimated_consultation_mins := some 15 }
    travel_data := { traffic_duration_mins := some 15 } }

/-- A second CRITICAL patient with a lower score than B: urgency 9,
travel 5, consult 10. -/
def dataE : PatientData :=
  { token_number := 4
    name := "Patient E"
    contact_number := ""
    symptoms_analysis := { urgency_score := some 9, estimated_consultation_mins := some 10 }
    travel_data := { traffic_duration_mins := some 5 } }

/-- A PRIORITY-tier patient: urgency 6, travel 5, consult 10. -/
def dataP : PatientData :=
  { token_number := 5
    name := "Patient P"
    contact_number := ""
    symptoms_analysis := { urgency_score := some 6, estimated_consultation_mins := some 10 }
    travel_data := { traffic_duration_mins := some 5 } }

/-- A CRITICAL patient whose travel ETA has a fractional part that makes
the unrounded score land on a third decimal: urgency 9, travel 10.001,
consult 30. -/
def dataF : PatientData :=
  { token_number := 6
    name := "Patient F"
    contact_number := ""
    symptoms_analysis := { urgency_score := some 9, estimated_consultation_mins := some 30 }
    travel_data := { traffic_duration_mins := some 10.001 } }

/-- The node `enqueue_patient` builds for `dataA`: NORMAL, score 62. -/
def nodeA : PatientNode :=
  { priority_score := 62
    token_number := 1
    name := "Patient A"
    contact_number := ""
    emergency_level := 0
    travel_eta_mins := 25
    predicted_consult_mins := 12
    symptoms_analysis := { urgency_score := some 2, estimated_consultation_mins := some 12 }
    travel_data := { traffic_duration_mins := some 25 }
    booking_time := "t0"
    last_priority_update := "t0" }

/-- The node `enqueue_patient` builds for `dataB`: CRITICAL, score 60. -/
def nodeB : PatientNode :=
  { priority_score := 60
    token_number := 2
    name := "Patient B"
    contact_number := ""
    emergency_level := 2
    travel_eta_mins := 10
    predicted_consult_mins := 30
    symptoms_analysis := { urgency_score := some 9, estimated_consultation_mins := some 30 }
    travel_data := { traffic_duration_mins := some 10 }
    booking_time := "t0"
    last_priority_update := "t0" }

/-- The node `enqueue_patient` builds for `dataC`: NORMAL, score 45. -/
def nodeC : PatientNode :=
  { priority_score := 45
    token_number := 3
    name := "Patient C"
    contact_number := ""
    emergency_level := 0
    travel_eta_mins := 15
    predicted_consult_mins := 15
    symptoms_analysis := { urgency_score := some 5, estimated_consultation_mins := some 15 }
    travel_data := { traffic_duration_mins := some 15 }
    booking_time := "t0"
    last_priority_update := "t0" }

/-- The node `enqueue_patient` builds for `dataE`: CRITICAL, score 30. -/
def nodeE : PatientNode :=
  { priority_score := 30
    token_number := 4
    name := "Patient E"
    contact_number := ""
    emergency_level := 2
    travel_eta_mins := 5
    predicted_consult_mins := 10
    symptoms_analysis := { urgency_score := some 9, estimated_consultation_mins := some 10 }
    travel_data := { traffic_duration_mins := some 5 }
    booking_time := "t0"
    last_priority_update := "t0" }

/-- The node `enqueue_patient` builds for `dataP`: PRIORITY, score 25. -/
def nodeP : PatientNode :=
  { priority_score := 25
    token_number := 5
    name := "Patient P"
    contact_number := ""
    emergency_level := 1
    travel_eta_mins := 5
    predicted_consult_mins := 10
    symptoms_analysis := { urgency_score := some 6, estimated_consultation_mins := some 10 }
    travel_data := { traffic_duration_mins := some 5 }
    booking_time := "t0"
    last_priority_update := "t0" }

/-- The node `enqueue_patient` builds for `dataF`: CRITICAL, stored score
60 although the unrounded weighted sum is 60.002. -/
def nodeF : PatientNode :=
  { priority_score := 60
    token_number := 6
    name := "Patient F"
    contact_number := ""
    emergency_level := 2
    travel_eta_mins := 10.001
    predicted_consult_mins := 30
    symptoms_analysis := { urgency_score := some 9, estimated_consultation_mins := some 30 }
    travel_data := { traffic_duration_mins := some 10.001 }
    booking_time := "t0"
    last_priority_update := "t0" }

/-- The emergency-queue copy of `nodeB`: negated score, defaults
everywhere outside the eight copied fields. -/
def emgB : PatientNode :=
  { priority_score := -60
    token_number := 2
    name := "Patient B"
    contact_number := ""
    emergency_level := 2
    travel_eta_mins := 10
    predicted_consult_mins := 30
    symptoms_analysis := { urgency_score := some 9, estimated_consultation_mins := some 30 } }

/-- The emergency-queue copy of `nodeE`. -/
def emgE : PatientNode :=
  { priority_score := -30
    token_number := 4
    name := "Patient E"
    contact_number := ""
    emergency_level := 2
    travel_eta_mins := 5
    predicted_consult_mins := 10
    symptoms_analysis := { urgency_score := some 9, estimated_consultation_mins := some 10 } }

/-- `nodeB` after one 5-minute aging tick: waiting 5, score 45. -/
def nodeB45 : PatientNode := { nodeB with waiting_time_mins := 5, priority_score := 45 }

theorem keyA : nodeKey nodeA = 62 := rfl

theorem keyB : nodeKey nodeB = 60 := rfl

theorem keyC : nodeKey nodeC = 45 := rfl

theorem keyE : nodeKey nodeE = 30 := rfl

theorem keyP : nodeKey nodeP = 25 := rfl

theorem keyEmgB : nodeKey emgB = -60 := rfl

theorem keyEmgE : nodeKey emgE = -30 := rfl

theorem scoreA : nodeA.priority_score = 62 := rfl

theorem scoreB : nodeB.priority_score = 60 := rfl

theorem scoreC : nodeC.priority_score = 45 := rfl

theorem scoreE : nodeE.priority_score = 30 := rfl

theorem scoreP : nodeP.priority_score = 25 := rfl

theorem scoreEmgB : emgB.priority_score = -60 := rfl

theorem scoreEmgE : emgE.priority_score = -30 := rfl

theorem tokenA : nodeA.token_number = 1 := rfl

theorem tokenB : nodeB.token_number = 2 := rfl

theorem tokenC : nodeC.token_number = 3 := rfl

theorem tokenE : nodeE.token_number = 4 := rfl

theorem tokenP : nodeP.token_number = 5 := rfl

theorem tokenEmgB : emgB.token_number = 2 := rfl

theorem tokenEmgE : emgE.token_number = 4 := rfl

theorem levelA : nodeA.emergency_level = 0 := rfl

theorem levelB : nodeB.emergency_level = 2 := rfl

theorem levelC : nodeC.emergency_level = 0 := rfl

theorem levelE : nodeE.emergency_level = 2 := rfl

theorem levelP : nodeP.emergency_level = 1 := rfl

theorem levelEmgB : emgB.emergency_level = 2 := rfl

theorem levelEmgE : emgE.emergency_level = 2 := rfl

theorem mkA : mkPatientNode dataA "t0" = nodeA := by
  norm_num [mkPatientNode, calculate_priority_score, classifyUrgency, dataA, nodeA,
    PriorityWeights.EMERGENCY, PriorityWeights.TRAVEL_ETA, PriorityWeights.CONSULTATION_TIME,
    PriorityWeights.WAITING_TIME, PriorityWeights.ARRIVAL_PROB,
    EmergencyLevel.CRITICAL, EmergencyLevel.PRIORITY, EmergencyLevel.NORMAL,
    round2, roundHalfEven, Rat.floor_def]

theorem mkB : mkPatientNode dataB "t0" = nodeB := by
  norm_num [mkPatientNode, calculate_priority_score, classifyUrgency, dataB, nodeB,
    PriorityWeights.EMERGENCY, PriorityWeights.TRAVEL_ETA, PriorityWeights.CONSULTATION_TIME,
    PriorityWeights.WAITING_TIME, PriorityWeights.ARRIVAL_PROB,
    EmergencyLevel.CRITICAL, EmergencyLevel.PRIORITY, EmergencyLevel.NORMAL,
    round2, roundHalfEven, Rat.floor_def]

theorem mkC : mkPatientNode dataC "t0" = nodeC := by
  norm_num [mkPatientNode, calculate_priority_score, classifyUrgency, dataC, nodeC,
    PriorityWeights.EMERGENCY, PriorityWeights.TRAVEL_ETA, PriorityWeights.CONSULTATION_TIME,
    PriorityWeights.WAITING_TIME, PriorityWeights.ARRIVAL_PROB,
    EmergencyLevel.CRITICAL, EmergencyLevel.PRIORITY, EmergencyLevel.NORMAL,
    round2, roundHalfEven, Rat.floor_def]

theorem mkE : mkPatientNode dataE "t0" = nodeE := by
  norm_num [mkPatientNode, calculate_priority_score, classifyUrgency, dataE, nodeE,
    PriorityWeights.EMERGENCY, PriorityWeights.TRAVEL_ETA, PriorityWeights.CONSULTATION_TIME,
    PriorityWeights.WAITING_TIME, PriorityWeights.ARRIVAL_PROB,
    EmergencyLevel.CRITICAL, EmergencyLevel.PRIORITY, EmergencyLevel.NORMAL,
    round2, roundHalfEven, Rat.floor_def]

theorem mkP : mkPatientNode dataP "t0" = nodeP := by
  norm_num [mkPatientNode, calculate_priority_score, classifyUrgency, dataP, nodeP,
    PriorityWeights.EMERGENCY, PriorityWeights.TRAVEL_ETA, PriorityWeights.CONSULTATION_TIME,
    PriorityWeights.WAITING_TIME, PriorityWeights.ARRIVAL_PROB,
    EmergencyLevel.CRITICAL, EmergencyLevel.PRIORITY, EmergencyLevel.NORMAL,
    round2, roundHalfEven, Rat.floor_def]

theorem mkF : mkPatientNode dataF "t0" = nodeF := by
  norm_num [mkPatientNode, calculate_priority_score, classifyUrgency, dataF, nodeF,
    PriorityWeights.EMERGENCY, PriorityWeights.TRAVEL_ETA, PriorityWeights.CONSULTATION_TIME,
    PriorityWeights.WAITING_TIME, PriorityWeights.ARRIVAL_PROB,
    EmergencyLevel.CRITICAL, EmergencyLevel.PRIORITY, EmergencyLevel.NORMAL,
    round2, roundHalfEven, Rat.floor_def]

theorem mkEmgB : mkEmergencyNode nodeB = emgB := by
  norm_num [mkEmergencyNode, nodeB, emgB]

theorem mkEmgE : mkEmergencyNode nodeE = emgE := by
  norm_num [mkEmergencyNode, nodeE, emgE]

/-- State after enqueuing A on an empty scheduler. -/
def stA : SchedulerState :=
  { main_queue := [nodeA], patient_map := [(1, nodeA)], wait_tracker := [(1, 0)],
    total_enqueued := 1 }

/-- State after enqueuing B on an empty scheduler. -/
def stB : SchedulerState :=
  { emergency_queue := [emgB], patient_map := [(2, nodeB)], wait_tracker := [(2, 0)],
    total_enqueued := 1 }

/-- State after enqueuing A then B. -/
def stAB : SchedulerState :=
  { main_queue := [nodeA], emergency_queue := [emgB],
    patient_map := [(1, nodeA), (2, nodeB)], wait_tracker := [(1, 0), (2, 0)],
    total_enqueued := 2 }

/-- State after enqueuing A, B, C. -/
def stABC : SchedulerState :=
  { main_queue := [nodeC, nodeA], emergency_queue := [emgB],
    patient_map := [(1, nodeA), (2, nodeB), (3, nodeC)],
    wait_tracker := [(1, 0), (2, 0), (3, 0)],
    total_enqueued := 3 }

/-- State after enqueuing B then E (two CRITICAL records). -/
def stBE : SchedulerState :=
  { emergency_queue := [emgB, emgE],
    patient_map := [(2, nodeB), (4, nodeE)], wait_tracker := [(2, 0), (4, 0)],
    total_enqueued := 2 }

/-- State after enqueuing B then P. -/
def stBP : SchedulerState :=
  { emergency_queue := [emgB], main_queue := [nodeP],
    patient_map := [(2, nodeB), (5, nodeP)], wait_tracker := [(2, 0), (5, 0)],
    total_enqueued := 2 }

/-- State after enqueuing B and applying one 5-minute aging tick. -/
def stB5 : SchedulerState :=
  { emergency_queue := [emgB], patient_map := [(2, nodeB45)], wait_tracker := [(2, 5)],
    total_enqueued := 1, reorder_count := 1 }

/-- State after enqueuing C on an empty scheduler. -/
def stC : SchedulerState :=
  { main_queue := [nodeC], patient_map := [(3, nodeC)], wait_tracker := [(3, 0)],
    total_enqueued := 1 }

set_option maxHeartbeats 1000000

theorem pushCA : Heapq.heappush nodeKey [nodeA] nodeC = [nodeC, nodeA] :=
  Heapq.heappush_one_lt nodeKey nodeA nodeC (by rw [keyC, keyA]; norm_num)

theorem pushBE : Heapq.heappush nodeKey [emgB] emgE = [emgB, emgE] :=
  Heapq.heappush_one_ge nodeKey emgB emgE (by rw [keyEmgE, keyEmgB]; norm_num)

theorem stepA : applyOp {} (.enq dataA "t0") = stA := by
  norm_num [applyOp, enqueue_patient, mkA, Heapq.heappush_nil,
    tokenA, levelA, EmergencyLevel.CRITICAL,
    dictSet, dictContains, dictLookup, List.find?, stA]

theorem stepB : applyOp {} (.enq dataB "t0") = stB := by
  norm_num [applyOp, enqueue_patient, mkB, mkEmgB, Heapq.heappush_nil,
    tokenB, levelB, EmergencyLevel.CRITICAL,
    dictSet, dictContains, dictLookup, List.find?, stB]

theorem stepAB : applyOp stA (.enq dataB "t0") = stAB := by
  norm_num [applyOp, enqueue_patient, mkB, mkEmgB, Heapq.heappush_nil,
    tokenB, tokenA, levelB, EmergencyLevel.CRITICAL,
    dictSet, dictContains, dictLookup, List.find?, stA, stAB]

theorem stepABC : applyOp stAB (.enq dataC "t0") = stABC := by
  norm_num [applyOp, enqueue_patient, mkC, pushCA,
    tokenC, tokenA, tokenB, levelC, EmergencyLevel.CRITICAL,
    dictSet, dictContains, dictLookup, List.find?, stAB, stABC]

theorem stepBE : applyOp stB (.enq dataE "t0") = stBE := by
  norm_num [applyOp, enqueue_patient, mkE, mkEmgE, pushBE,
    tokenE, tokenB, levelE, EmergencyLevel.CRITICAL,
    dictSet, dictContains, dictLookup, List.find?, stB, stBE]

theorem stepBP : applyOp stB (.enq dataP "t0") = stBP := by
  norm_num [applyOp, enqueue_patient, mkP, Heapq.heappush_nil,
    tokenP, tokenB, levelP, EmergencyLevel.CRITICAL,
    dictSet, dictContains, dictLookup, List.find?, stB, stBP]

theorem stepB5 : applyOp stB (.age 5) = stB5 := by
  norm_num [applyOp, apply_aging, agedNodeAt, reheapify_queue, stB, stB5,
    calculate_priority_score, nodeB, nodeB45, emgB,
    PriorityWeights.EMERGENCY, PriorityWeights.TRAVEL_ETA, PriorityWeights.CONSULTATION_TIME,
    PriorityWeights.WAITING_TIME, PriorityWeights.ARRIVAL_PROB,
    round2, roundHalfEven, Rat.floor_def,
    Heapq.heapify, Heapq.heapifyAux,
    dictSet, dictContains, dictLookup, List.find?, List.filter]

theorem stepC : applyOp {} (.enq dataC "t0") = stC := by
  norm_num [applyOp, enqueue_patient, mkC, Heapq.heappush_nil,
    tokenC, levelC, EmergencyLevel.CRITICAL,
    dictSet, dictContains, dictLookup, List.find?, stC]

/-- Pop `n` patients, collecting their token numbers. -/
def deqTokens : ℕ → SchedulerState → List ℤ
  | 0, _ => []
  | n + 1, s =>
    match dequeue_next_patient s with
    | (s2, some p) => p.token_number :: deqTokens n s2
    | (_, none) => []

/-- `stABC` after one dequeue (B, the emergency entry, comes out). -/
def stABC1 : SchedulerState :=
  { main_queue := [nodeC, nodeA],
    patient_map := [(1, nodeA), (3, nodeC)], wait_tracker := [(1, 0), (3, 0)],
    total_enqueued := 3, total_dequeued := 1 }

/-- `stABC1` after one dequeue (C). -/
def stABC2 : SchedulerState :=
  { main_queue := [nodeA],
    patient_map := [(1, nodeA)], wait_tracker := [(1, 0)],
    total_enqueued := 3, total_dequeued := 2 }

/-- `stABC2` after one dequeue (A). -/
def stABC3 : SchedulerState :=
  { total_enqueued := 3, total_dequeued := 3 }

theorem deqABC1 : dequeue_next_patient stABC
    = (stABC1, some { emgB with priority_score := 60 }) := by
  norm_num [dequeue_next_patient, stABC, stABC1, Heapq.heappop_single,
    scoreEmgB, tokenA, tokenC, tokenEmgB,
    dictDel, List.filter, List.find?, dictLookup]

theorem deqABC2 : dequeue_next_patient stABC1 = (stABC2, some nodeC) := by
  norm_num [dequeue_next_patient, stABC1, stABC2,
    Heapq.heappop_pair, Heapq.heappop_nil,
    tokenA, tokenC, dictDel, List.filter, List.find?, dictLookup]

theorem deqABC3 : dequeue_next_patient stABC2 = (stABC3, some nodeA) := by
  norm_num [dequeue_next_patient, stABC2, stABC3,
    Heapq.heappop_single, Heapq.heappop_nil,
    tokenA, dictDel, List.filter, List.find?, dictLookup]

theorem deqThree : deqTokens 3 stABC = [2, 3, 1] := by
  simp only [deqTokens, deqABC1, deqABC2, deqABC3, tokenC, tokenA]
  norm_num [tokenEmgB]

theorem decCN : (decide (("CRITICAL" : String) = "NORMAL")) = false := by decide

theorem decPN : (decide (("PRIORITY" : String) = "NORMAL")) = false := by decide

theorem decCP : (decide (("CRITICAL" : String) = "PRIORITY")) = false := by decide

theorem decCC : (decide (("CRITICAL" : String) = "CRITICAL")) = true := by decide

theorem decPP : (decide (("PRIORITY" : String) = "PRIORITY")) = true := by decide

theorem decPC : (decide (("PRIORITY" : String) = "CRITICAL")) = false := by decide

theorem decOrC : (decide ((("CRITICAL" : String) = "PRIORITY") ∨
    (("CRITICAL" : String) = "CRITICAL"))) = true := by decide

theorem decOrP : (decide ((("PRIORITY" : String) = "PRIORITY") ∨
    (("PRIORITY" : String) = "CRITICAL"))) = true := by decide

theorem snapBP : (get_queue_snapshot stBP).patients.map SnapshotEntry.token_number = [5, 2] ∧
    (get_queue_snapshot stBP).emergency_count = 2 ∧
    (get_queue_snapshot stBP).main_queue_count = 0 := by
  refine ⟨?_, ?_, ?_⟩ <;>
  norm_num [get_queue_snapshot, snapshotEntryOfEmergency, snapshotEntryOfMain,
    emergencyLevelName, stBP, dictLookup, List.find?, scoreLE,
    List.mergeSort, List.merge, List.filter,
    decCN, decPN, decCP, decCC, decPP, decPC, decOrC, decOrP,
    scoreEmgB, scoreP, tokenEmgB, tokenP, levelEmgB, levelP, emgB, nodeP]

end PQM

namespace PQM

def opsB : List SchedOp := [.enq dataB "t0"]

def opsC : List SchedOp := [.enq dataC "t0"]

def opsC3 : List SchedOp := [.enq dataA "t0", .enq dataB "t0", .enq dataC "t0"]

def opsBE : List SchedOp := [.enq dataB "t0", .enq dataE "t0"]

def opsBP : List SchedOp := [.enq dataB "t0", .enq dataP "t0"]

def opsB5 : List SchedOp := [.enq dataB "t0", .age 5]

theorem runB : run opsB = stB := by
  simp only [run, opsB, List.foldl_cons, List.foldl_nil, stepB]

theorem runC : run opsC = stC := by
  simp only [run, opsC, List.foldl_cons, List.foldl_nil, stepC]

theorem runABC : run opsC3 = stABC := by
  simp only [run, opsC3, List.foldl_cons, List.foldl_nil, stepA, stepAB, stepABC]

theorem runBE : run opsBE = stBE := by
  simp only [run, opsBE, List.foldl_cons, List.foldl_nil, stepB, stepBE]

theorem runBP : run opsBP = stBP := by
  simp only [run, opsBP, List.foldl_cons, List.foldl_nil, stepB, stepBP]

theorem runB5 : run opsB5 = stB5 := by
  simp only [run, opsB5, List.foldl_cons, List.foldl_nil, stepB, stepB5]

/-- `stBE` after one dequeue: B (score 60) comes out, E (score 30) stays. -/
def stBE1 : SchedulerState :=
  { emergency_queue := [emgE], patient_map := [(4, nodeE)], wait_tracker := [(4, 0)],
    total_enqueued := 2, total_dequeued := 1 }

theorem deqBE : dequeue_next_patient stBE
    = (stBE1, some { emgB with priority_score := 60 }) := by
  norm_num [dequeue_next_patient, stBE, stBE1, Heapq.heappop_pair,
    scoreEmgB, tokenEmgB, tokenEmgE,
    dictDel, List.filter, List.find?, dictLookup]

/-- `stB` after one dequeue. -/
def stB1 : SchedulerState := { total_enqueued := 1, total_dequeued := 1 }

theorem deqB : dequeue_next_patient stB
    = (stB1, some { emgB with priority_score := 60 }) := by
  norm_num [dequeue_next_patient, stB, stB1, Heapq.heappop_single,
    scoreEmgB, tokenEmgB,
    dictDel, List.filter, List.find?, dictLookup]

end PQM

namespace Heapq

theorem heappop_isSome {α : Type} (k : α → ℚ) (l : List α) (hne : l ≠ []) :
    ∃ a l₂, heappop k l = some (a, l₂) ∧ a ∈ l := by
  match l with
  | [] => exact absurd rfl hne
  | [x] => exact ⟨x, [], heappop_single k x, by simp⟩
  | x :: z :: t => exact ⟨x, _, heappop_cons_cons k x z t, by simp⟩

end Heapq

namespace PQM

/-- C1 counterexample: with two CRITICAL records queued together (original
scores 60 and 30), `dequeue_next_patient` returns the HIGHER-scored one:
the emergency structure stores negated scores, so popping its minimum key
returns the maximum original score, not the minimum. -/
theorem dequeue_emergency_not_min :
    (run opsBE).emergency_queue.map (fun p => -p.priority_score) = [60, 30] ∧
    ((dequeue_next_patient (run opsBE)).2.map PatientNode.priority_score) = some 60 ∧
    ¬ ((60 : ℚ) ≤ 30) := by
  refine ⟨?_, ?_, by norm_num⟩
  · rw [runBE]
    norm_num [stBE, scoreEmgB, scoreEmgE]
  · rw [runBE, deqBE]
    rfl

/-- C1 (amended): when the emergency structure is non-empty,
`dequeue_next_patient` removes one of its entries and returns it with the
sign of its score restored, and that entry is the one whose restored
(original) priority score is MAXIMAL among the queued emergency entries —
the structure is a max-heap on original scores via negation, so the claim
holds with "minimum" replaced by "maximum". -/
theorem dequeue_emergency_pops_max (ops : List SchedOp) (hops : ∀ op ∈ ops, opOK op)
    (hne : (run ops).emergency_queue ≠ []) :
    ∃ e ∈ (run ops).emergency_queue,
      (dequeue_next_patient (run ops)).2 = some { e with priority_score := -e.priority_score } ∧
      (∀ q ∈ (run ops).emergency_queue, -q.priority_score ≤ -e.priority_score) ∧
      ((dequeue_next_patient (run ops)).1.emergency_queue : Multiset PatientNode) + {e}
        = ((run ops).emergency_queue : Multiset PatientNode) := by
  have hok := run_heapOK ops hops
  obtain ⟨a, l₂, hpop, hmset, _, hmin⟩ :=
    Heapq.heappop_spec nodeKey (run ops).emergency_queue hne hok.2
  have hamem : a ∈ (run ops).emergency_queue := by
    have hx : a ∈ ((l₂ : List PatientNode) : Multiset PatientNode) + {a} := by simp
    rw [hmset] at hx
    exact Multiset.mem_coe.1 hx
  refine ⟨a, hamem, ?_, ?_, ?_⟩
  · simp only [dequeue_next_patient, hpop]
  · intro q hq
    have hk := hmin q hq
    simp only [nodeKey] at hk
    linarith
  · simp only [dequeue_next_patient, hpop]
    exact hmset

theorem dequeue_emergency_pops_max_witness :
    (∀ op ∈ opsBE, opOK op) ∧ (run opsBE).emergency_queue ≠ [] ∧
    ∃ e ∈ (run opsBE).emergency_queue,
      (dequeue_next_patient (run opsBE)).2
        = some { e with priority_score := -e.priority_score } ∧
      (∀ q ∈ (run opsBE).emergency_queue, -q.priority_score ≤ -e.priority_score) ∧
      ((dequeue_next_patient (run opsBE)).1.emergency_queue : Multiset PatientNode) + {e}
        = ((run opsBE).emergency_queue : Multiset PatientNode) := by
  have h1 : ∀ op ∈ opsBE, opOK op := by
    intro op hop
    simp only [opsBE, List.mem_cons, List.not_mem_nil, or_false] at hop
    rcases hop with rfl | rfl <;> trivial
  have h2 : (run opsBE).emergency_queue ≠ [] := by
    rw [runBE]
    simp [stBE]
  exact ⟨h1, h2, dequeue_emergency_pops_max opsBE h1 h2⟩

/-- C2: if any CRITICAL record is still queued (in either structure), the
record `dequeue_next_patient` returns is CRITICAL — NORMAL and PRIORITY
records are never served while a CRITICAL one waits, for every operation
sequence (in particular every enqueue/dequeue interleaving). -/
theorem critical_preempts (ops : List SchedOp) (q : PatientNode)
    (hq : q ∈ (run ops).main_queue ∨ q ∈ (run ops).emergency_queue)
    (hcrit : q.emergency_level = EmergencyLevel.CRITICAL)
    (p : PatientNode) (hp : (dequeue_next_patient (run ops)).2 = some p) :
    p.emergency_level = EmergencyLevel.CRITICAL := by
  have hinv := run_inv ops
  have hqe : q ∈ (run ops).emergency_queue := by
    rcases hq with hq | hq
    · exact absurd hcrit (hinv.main_tier q hq)
    · exact hq
  obtain ⟨a, l₂, hpop, hamem⟩ :=
    Heapq.heappop_isSome nodeKey (run ops).emergency_queue (List.ne_nil_of_mem hqe)
  simp only [dequeue_next_patient, hpop] at hp
  have hpe : { a with priority_score := -a.priority_score } = p := Option.some.inj hp
  rw [← hpe]
  exact hinv.emerg_tier a hamem

theorem critical_preempts_witness :
    (emgB ∈ (run opsB).main_queue ∨ emgB ∈ (run opsB).emergency_queue) ∧
    emgB.emergency_level = EmergencyLevel.CRITICAL ∧
    (dequeue_next_patient (run opsB)).2 = some { emgB with priority_score := 60 } ∧
    ({ emgB with priority_score := 60 } : PatientNode).emergency_level
      = EmergencyLevel.CRITICAL := by
  have h1 : emgB ∈ (run opsB).main_queue ∨ emgB ∈ (run opsB).emergency_queue := by
    rw [runB]
    right
    simp [stB]
  have h2 : emgB.emergency_level = EmergencyLevel.CRITICAL := rfl
  have h3 : (dequeue_next_patient (run opsB)).2 = some { emgB with priority_score := 60 } := by
    rw [runB, deqB]
  exact ⟨h1, h2, h3, critical_preempts opsB emgB h1 h2 _ h3⟩

/-- C3 counterexample: for a patient whose travel ETA is 10.001 minutes
(urgency 9, consult 30) the weighted formula gives 60.002, but the stored
priority score is `round(60.002, 2) = 60` — the stored score is the
ROUNDED value, not the exact weighted sum the claim states. -/
theorem score_rounding_counterexample :
    (mkPatientNode dataF "t0").priority_score = 60 ∧
    rawScore (mkPatientNode dataF "t0") = 60.002 ∧
    (mkPatientNode dataF "t0").priority_score ≠ rawScore (mkPatientNode dataF "t0") := by
  have h1 : (mkPatientNode dataF "t0").priority_score = 60 := by
    rw [mkF]
    rfl
  have h2 : rawScore (mkPatientNode dataF "t0") = 60.002 := by
    rw [mkF]
    norm_num [rawScore, nodeF,
      PriorityWeights.EMERGENCY, PriorityWeights.TRAVEL_ETA, PriorityWeights.CONSULTATION_TIME,
      PriorityWeights.WAITING_TIME, PriorityWeights.ARRIVAL_PROB]
  refine ⟨h1, h2, ?_⟩
  rw [h1, h2]
  norm_num

/-- C3 (amended): the urgency classifier follows the authoritative rule
(`>= 8` CRITICAL, `>= 6` PRIORITY, else NORMAL); the stored score is the
weighted formula ROUNDED to two decimals (`round(score, 2)`); and the
three-patient scenario behaves exactly as claimed: A scores 62 (NORMAL),
B scores 60 (CRITICAL, placed in the emergency structure), C scores 45
(NORMAL), and the dequeue order is B (token 2), C (token 3), A (token 1). -/
theorem classifier_scores_and_scenario :
    (∀ u : ℤ, (8 ≤ u → classifyUrgency u = EmergencyLevel.CRITICAL) ∧
      (6 ≤ u → u < 8 → classifyUrgency u = EmergencyLevel.PRIORITY) ∧
      (u < 6 → classifyUrgency u = EmergencyLevel.NORMAL)) ∧
    (∀ d now, (mkPatientNode d now).priority_score
      = round2 (rawScore (mkPatientNode d now))) ∧
    ((mkPatientNode dataA "t0").priority_score = 62 ∧
      (mkPatientNode dataA "t0").emergency_level = EmergencyLevel.NORMAL) ∧
    ((mkPatientNode dataB "t0").priority_score = 60 ∧
      (mkPatientNode dataB "t0").emergency_level = EmergencyLevel.CRITICAL) ∧
    ((mkPatientNode dataC "t0").priority_score = 45 ∧
      (mkPatientNode dataC "t0").emergency_level = EmergencyLevel.NORMAL) ∧
    (run opsC3).emergency_queue = [mkEmergencyNode (mkPatientNode dataB "t0")] ∧
    deqTokens 3 (run opsC3) = [2, 3, 1] := by
  refine ⟨?_, ?_, ?_, ?_, ?_, ?_, ?_⟩
  · intro u
    refine ⟨fun h8 => ?_, fun h6 h8 => ?_, fun h6 => ?_⟩ <;>
      simp only [classifyUrgency, EmergencyLevel.CRITICAL, EmergencyLevel.PRIORITY,
        EmergencyLevel.NORMAL] <;>
      split_ifs <;> omega
  · intro d now
    rw [mkPatientNode_fresh, calc_eq_round2_raw]
  · rw [mkA]
    exact ⟨rfl, rfl⟩
  · rw [mkB]
    exact ⟨rfl, rfl⟩
  · rw [mkC]
    exact ⟨rfl, rfl⟩
  · rw [runABC, mkB, mkEmgB]
    rfl
  · rw [runABC]
    exact deqThree

/-- C4 counterexample: enqueue B (CRITICAL, score 60) and apply one
5-minute aging tick.  The tracked record now has waiting 5 and recomputed
score 45, but the emergency-structure entry still carries waiting 0 and
the enqueue-time score 60: aging never touches the emergency structure,
so its stored data IS stale. -/
theorem stale_emergency_after_aging :
    (run opsB5).emergency_queue.map (fun p => -p.priority_score) = [60] ∧
    (run opsB5).emergency_queue.map PatientNode.waiting_time_mins = [0] ∧
    ((dictLookup (run opsB5).patient_map 2).map PatientNode.priority_score) = some 45 ∧
    ((dictLookup (run opsB5).patient_map 2).map PatientNode.waiting_time_mins) = some 5 ∧
    ((45 : ℚ) ≠ 60) := by
  refine ⟨?_, ?_, ?_, ?_, by norm_num⟩ <;>
    rw [runB5] <;>
    norm_num [stB5, scoreEmgB, emgB, nodeB45, nodeB, dictLookup, List.find?]

/-- C4 (amended): in every reachable state the main-queue and patient-map
records carry exactly the score of the formula on their current fields
(never stale); the emergency-structure entries instead carry the NEGATED
formula value of their own fields, and those fields are frozen
enqueue-time copies (waiting 0, defaults elsewhere) that no later
mutation — aging ticks included — ever updates. -/
theorem scores_never_stale_except_frozen (ops : List SchedOp) :
    (∀ p ∈ (run ops).main_queue, p.priority_score = calculate_priority_score p) ∧
    (∀ e ∈ (run ops).patient_map, e.2.priority_score = calculate_priority_score e.2) ∧
    (∀ p ∈ (run ops).emergency_queue,
      p.priority_score = -(calculate_priority_score p) ∧ frozenEntry p) :=
  ⟨(run_inv ops).main_fresh, (run_inv ops).map_fresh,
    fun p hp => ⟨(run_inv ops).emerg_score p hp, (run_inv ops).emerg_frozen p hp⟩⟩

end PQM

namespace PQM

theorem rawScore_set_score (p : PatientNode) (v : ℚ) :
    rawScore { p with priority_score := v } = rawScore p := rfl

/-- What one aging tick does to a tracked record: the lookup survives, the
waiting time grows by the elapsed minutes, and the score is recomputed
from the grown waiting time. -/
theorem aging_lookup (s : SchedulerState) (hinv : Inv s) (el : ℚ) (t : ℤ) (p : PatientNode)
    (hp : dictLookup s.patient_map t = some p) :
    dictLookup (apply_aging s el).patient_map t = some (agedNodeAt s el t p) ∧
    (agedNodeAt s el t p).waiting_time_mins = p.waiting_time_mins + el ∧
    (agedNodeAt s el t p).priority_score
      = round2 (rawScore p + PriorityWeights.WAITING_TIME * el) ∧
    rawScore (agedNodeAt s el t p) = rawScore p + PriorityWeights.WAITING_TIME * el := by
  have hmem := dictLookup_mem hp
  have hsync : dictLookup s.wait_tracker t = some p.waiting_time_mins := hinv.sync (t, p) hmem
  have hmap : (apply_aging s el).patient_map
      = s.patient_map.map (fun e => (e.1, agedNodeAt s el e.1 e.2)) := by
    unfold apply_aging
    simp only []
    split_ifs
    · rfl
    · rfl
  refine ⟨?_, ?_, ?_, ?_⟩
  · rw [hmap, dictLookup_map_keyfix (fun e => (e.1, agedNodeAt s el e.1 e.2))
      (fun e => rfl), find?_of_dictLookup hp]
    rfl
  · rw [agedNodeAt_waiting, hsync, Option.getD_some]
  · rw [agedNodeAt_score, hsync, Option.getD_some]
    have h : p.waiting_time_mins + el - p.waiting_time_mins = el := by ring
    rw [h]
  · calc rawScore (agedNodeAt s el t p)
        = rawScore { p with waiting_time_mins :=
            (dictLookup s.wait_tracker t).getD 0 + el } := rfl
      _ = rawScore p + PriorityWeights.WAITING_TIME *
            ((dictLookup s.wait_tracker t).getD 0 + el - p.waiting_time_mins) :=
          rawScore_set_waiting p _
      _ = rawScore p + PriorityWeights.WAITING_TIME * el := by
          rw [hsync, Option.getD_some]
          ring

/-- C6: for a tracked record, one aging tick with nonnegative elapsed time
leaves `waiting_time_mins` no smaller and `priority_score` no larger; and
three consecutive 5-minute ticks yield a record whose waiting time has
grown by exactly 15 minutes and whose priority score is exactly 45 lower
(3 ticks x 5 min x the waiting weight 3.0), in particular a record with
waiting 0 ends at waiting 15. -/
theorem aging_monotone_and_arith (ops : List SchedOp) (el : ℚ) (hel : 0 ≤ el) (t : ℤ)
    (p : PatientNode) (hp : dictLookup (run ops).patient_map t = some p) :
    (∃ p2, dictLookup (apply_aging (run ops) el).patient_map t = some p2 ∧
      p.waiting_time_mins ≤ p2.waiting_time_mins ∧ p2.priority_score ≤ p.priority_score) ∧
    (∃ p3, dictLookup (run (ops ++ [.age 5, .age 5, .age 5])).patient_map t = some p3 ∧
      p3.waiting_time_mins = p.waiting_time_mins + 15 ∧
      p3.priority_score = p.priority_score - 45) := by
  have hinv := run_inv ops
  have hfresh : p.priority_score = calculate_priority_score p :=
    hinv.map_fresh (t, p) (dictLookup_mem hp)
  constructor
  · obtain ⟨hl, hw, hs, _⟩ := aging_lookup (run ops) hinv el t p hp
    refine ⟨_, hl, ?_, ?_⟩
    · rw [hw]
      linarith
    · rw [hs, hfresh, calc_eq_round2_raw]
      apply round2_mono
      have hWel : PriorityWeights.WAITING_TIME * el ≤ 0 := by
        simp only [PriorityWeights.WAITING_TIME]
        nlinarith
      linarith
  · have hrun3 : run (ops ++ [SchedOp.age 5, SchedOp.age 5, SchedOp.age 5])
        = apply_aging (apply_aging (apply_aging (run ops) 5) 5) 5 := by
      simp only [run, List.foldl_append, List.foldl_cons, List.foldl_nil, applyOp]
    have hinv1 : Inv (apply_aging (run ops) 5) := inv_aging _ 5 hinv
    have hinv2 : Inv (apply_aging (apply_aging (run ops) 5) 5) := inv_aging _ 5 hinv1
    obtain ⟨hl1, hw1, hs1, hr1⟩ := aging_lookup (run ops) hinv 5 t p hp
    obtain ⟨hl2, hw2, hs2, hr2⟩ := aging_lookup _ hinv1 5 t _ hl1
    obtain ⟨hl3, hw3, hs3, hr3⟩ := aging_lookup _ hinv2 5 t _ hl2
    refine ⟨_, by rw [hrun3]; exact hl3, ?_, ?_⟩
    · rw [hw3, hw2, hw1]
      ring
    · rw [hs3, hr2, hr1]
      have hW : rawScore p + PriorityWeights.WAITING_TIME * 5
          + PriorityWeights.WAITING_TIME * 5 + PriorityWeights.WAITING_TIME * 5
          = rawScore p - ((45 : ℤ) : ℚ) := by
        simp only [PriorityWeights.WAITING_TIME]
        push_cast
        ring
      rw [hW, round2_sub_int, hfresh, calc_eq_round2_raw]
      push_cast
      ring

theorem aging_monotone_and_arith_witness :
    ((0 : ℚ) ≤ 5) ∧ dictLookup (run opsC).patient_map 3 = some nodeC ∧
    ((∃ p2, dictLookup (apply_aging (run opsC) 5).patient_map 3 = some p2 ∧
        nodeC.waiting_time_mins ≤ p2.waiting_time_mins ∧
        p2.priority_score ≤ nodeC.priority_score) ∧
      (∃ p3, dictLookup (run (opsC ++ [.age 5, .age 5, .age 5])).patient_map 3 = some p3 ∧
        p3.waiting_time_mins = nodeC.waiting_time_mins + 15 ∧
        p3.priority_score = nodeC.priority_score - 45)) := by
  have h1 : (0 : ℚ) ≤ 5 := by norm_num
  have h2 : dictLookup (run opsC).patient_map 3 = some nodeC := by
    rw [runC]
    norm_num [stC, dictLookup, List.find?]
  exact ⟨h1, h2, aging_monotone_and_arith opsC 5 h1 3 nodeC h2⟩

/-- C8 counterexample: enqueue B (CRITICAL, in the emergency structure)
and P (PRIORITY, in the main structure).  The snapshot's first group is
selected by tier LABEL, so the main-structure PRIORITY record joins it
and, having the lower score, precedes the emergency-structure record:
the output is NOT emergency-structure records first.  Its group counter
says 2 "emergency" patients although the emergency structure holds 1. -/
theorem snapshot_label_grouping :
    (run opsBP).emergency_queue.map PatientNode.token_number = [2] ∧
    (run opsBP).main_queue.map PatientNode.token_number = [5] ∧
    (get_queue_snapshot (run opsBP)).patients.map SnapshotEntry.token_number = [5, 2] ∧
    (get_queue_snapshot (run opsBP)).emergency_count = 2 ∧
    (get_queue_snapshot (run opsBP)).main_queue_count = 0 := by
  rw [runBP]
  refine ⟨?_, ?_, snapBP.1, snapBP.2.1, snapBP.2.2⟩
  · norm_num [stBP, tokenEmgB]
  · norm_num [stBP, tokenP]

/-- C8 (amended): the snapshot is two back-to-back groups, each sorted by
ascending priority score, with the state's lifetime counters copied
verbatim; but the groups are formed by tier LABEL, not by owning
structure: the first group is a permutation of the entries labelled
PRIORITY or CRITICAL (all emergency-structure entries plus any PRIORITY
main-structure entries), the second of those labelled NORMAL.  The
function only reads the state, so equal states give equal snapshots. -/
theorem snapshot_sorted_and_counters (s : SchedulerState) :
    ∃ eg ng,
      (get_queue_snapshot s).patients = eg ++ ng ∧
      eg.Pairwise (fun a b => a.priority_score ≤ b.priority_score) ∧
      ng.Pairwise (fun a b => a.priority_score ≤ b.priority_score) ∧
      eg.Perm ((s.emergency_queue.map (snapshotEntryOfEmergency s)
          ++ s.main_queue.map (snapshotEntryOfMain s)).filter
            (fun p => decide (p.emergency_level = "PRIORITY" ∨ p.emergency_level = "CRITICAL"))) ∧
      ng.Perm ((s.emergency_queue.map (snapshotEntryOfEmergency s)
          ++ s.main_queue.map (snapshotEntryOfMain s)).filter
            (fun p => decide (p.emergency_level = "NORMAL"))) ∧
      (get_queue_snapshot s).emergency_count = eg.length ∧
      (get_queue_snapshot s).main_queue_count = ng.length ∧
      (get_queue_snapshot s).total_patients = eg.length + ng.length ∧
      (get_queue_snapshot s).total_enqueued = s.total_enqueued ∧
      (get_queue_snapshot s).total_dequeued = s.total_dequeued ∧
      (get_queue_snapshot s).reorder_count = s.reorder_count := by
  have htrans : ∀ (a b c : SnapshotEntry), scoreLE a b → scoreLE b c → scoreLE a c := by
    intro a b c hab hbc
    simp only [scoreLE, decide_eq_true_eq] at hab hbc ⊢
    exact le_trans hab hbc
  have htot : ∀ (a b : SnapshotEntry), scoreLE a b || scoreLE b a := by
    intro a b
    simp only [scoreLE, Bool.or_eq_true, decide_eq_true_eq]
    exact le_total a.priority_score b.priority_score
  refine ⟨_, _, rfl, ?_, ?_, List.mergeSort_perm _ scoreLE, List.mergeSort_perm _ scoreLE,
    ?_, ?_, ?_, rfl, rfl, rfl⟩
  · exact (List.sorted_mergeSort htrans htot _).imp
      (fun h => by simpa [scoreLE, decide_eq_true_eq] using h)
  · exact (List.sorted_mergeSort htrans htot _).imp
      (fun h => by simpa [scoreLE, decide_eq_true_eq] using h)
  · exact ((List.mergeSort_perm _ scoreLE).length_eq).symm
  · exact ((List.mergeSort_perm _ scoreLE).length_eq).symm
  · exact List.length_append _ _

/-- C9: `remove_patient` on a token absent from the token index returns
the state unchanged together with `false`: queues, index, wait tracker
and counters are all exactly as before. -/
theorem remove_unknown_token_noop (s : SchedulerState) (t : ℤ)
    (h : dictLookup s.patient_map t = none) :
    remove_patient s t = (s, false) := by
  unfold remove_patient
  rw [h]

theorem remove_unknown_token_noop_witness :
    dictLookup (run opsB).patient_map 99 = none ∧
    remove_patient (run opsB) 99 = (run opsB, false) := by
  have h : dictLookup (run opsB).patient_map 99 = none := by
    rw [runB]
    norm_num [stB, dictLookup, List.find?]
  exact ⟨h, remove_unknown_token_noop (run opsB) 99 h⟩

/-- The `peek` copy of a frozen emergency entry coincides with the entry
itself with the sign of its score restored: every field the copy does not
set explicitly is a dataclass default, and a frozen entry holds exactly
those defaults. -/
theorem peek_restore_of_frozen (p : PatientNode) (hf : frozenEntry p) :
    ({ priority_score := -p.priority_score
       token_number := p.token_number
       name := p.name
       contact_number := p.contact_number
       emergency_level := p.emergency_level
       travel_eta_mins := p.travel_eta_mins
       predicted_consult_mins := p.predicted_consult_mins
       symptoms := p.symptoms
       symptoms_analysis := p.symptoms_analysis } : PatientNode)
      = { p with priority_score := -p.priority_score } := by
  obtain ⟨h1, h2, h3, h4, h5, h6, h7, h8, h9⟩ := hf
  cases p
  simp only at h1 h2 h3 h4 h5 h6 h7 h8 h9
  simp [h1, h2, h3, h4, h5, h6, h7, h8, h9]

/-- C10: emergency entries are frozen enqueue-time copies (waiting 0,
default location, travel data, booking time and arrival fields) holding
the negated enqueue-time score; `peek` returns exactly the head entry
with the sign restored, and on a non-empty emergency structure
`dequeue_next_patient` returns one of the entries with the sign restored
— so the served record's score is the score computed at enqueue time and
its waiting time is the default 0, regardless of any aging ticks or
attribute updates applied to the tracked record since. -/
theorem emergency_served_from_frozen_copies (ops : List SchedOp) :
    (∀ p ∈ (run ops).emergency_queue,
      frozenEntry p ∧ p.emergency_level = EmergencyLevel.CRITICAL ∧
      p.priority_score = -(calculate_priority_score p)) ∧
    (∀ p rest, (run ops).emergency_queue = p :: rest →
      peek (run ops) = some { p with priority_score := -p.priority_score } ∧
      ({ p with priority_score := -p.priority_score } : PatientNode).waiting_time_mins = 0 ∧
      ({ p with priority_score := -p.priority_score } : PatientNode).priority_score
        = calculate_priority_score p) ∧
    ((run ops).emergency_queue ≠ [] →
      ∃ e ∈ (run ops).emergency_queue,
        (dequeue_next_patient (run ops)).2
          = some { e with priority_score := -e.priority_score } ∧
        ({ e with priority_score := -e.priority_score } : PatientNode).waiting_time_mins = 0 ∧
        ({ e with priority_score := -e.priority_score } : PatientNode).priority_score
          = calculate_priority_score e) := by
  have hinv := run_inv ops
  refine ⟨?_, ?_, ?_⟩
  · intro p hp
    exact ⟨hinv.emerg_frozen p hp, hinv.emerg_tier p hp, hinv.emerg_score p hp⟩
  · intro p rest heq
    have hp : p ∈ (run ops).emergency_queue := by
      rw [heq]
      exact List.mem_cons_self p rest
    have hf := hinv.emerg_frozen p hp
    refine ⟨?_, ?_, ?_⟩
    · unfold peek
      rw [heq]
      exact congrArg some (peek_restore_of_frozen p hf)
    · show p.waiting_time_mins = 0
      exact hf.1
    · show -p.priority_score = calculate_priority_score p
      rw [hinv.emerg_score p hp]
      ring
  · intro hne
    obtain ⟨a, l₂, hpop, hamem⟩ := Heapq.heappop_isSome nodeKey (run ops).emergency_queue hne
    have hf := hinv.emerg_frozen a hamem
    refine ⟨a, hamem, ?_, ?_, ?_⟩
    · simp only [dequeue_next_patient, hpop]
    · show a.waiting_time_mins = 0
      exact hf.1
    · show -a.priority_score = calculate_priority_score a
      rw [hinv.emerg_score a hamem]
      ring

end PQM

namespace ETA

/-- C7: `calculate_eta` is total over its fallback ladder: the result's
method tag is always one of the three method names; an A* success is
returned as-is (tag `astar_graph`); with no graph path, a successful
external-service response yields tag `free_maps_api` and its duration
(default 20); and a raised external call yields the straight-line
haversine estimate at the heuristic's conversion speed, tag
`haversine_estimate`.  Every branch marks `path_found` and carries a
numeric travel time: there is no failure mode. -/
theorem calculate_eta_total (from_lat from_lon to_lat to_lon : ℚ)
    (astar : AStarOutcome) (api : ApiOutcome) :
    ((calculate_eta from_lat from_lon to_lat to_lon astar api).method = "astar_graph" ∨
      (calculate_eta from_lat from_lon to_lat to_lon astar api).method = "free_maps_api" ∨
      (calculate_eta from_lat from_lon to_lat to_lon astar api).method
        = "haversine_estimate") ∧
    (∀ r, astar = some r →
      calculate_eta from_lat from_lon to_lat to_lon astar api = r.toResult ∧
      r.toResult.method = "astar_graph") ∧
    (∀ res, astar = none → api = Except.ok res →
      (calculate_eta from_lat from_lon to_lat to_lon astar api).method = "free_maps_api" ∧
      (calculate_eta from_lat from_lon to_lat to_lon astar api).travel_time_mins
        = ((res.duration_minutes.getD 20 : ℚ) : ℝ) ∧
      (calculate_eta from_lat from_lon to_lat to_lon astar api).path_found = true) ∧
    (∀ msg, astar = none → api = Except.error msg →
      (calculate_eta from_lat from_lon to_lat to_lon astar api).method
        = "haversine_estimate" ∧
      (calculate_eta from_lat from_lon to_lat to_lon astar api).travel_time_mins
        = distance_to_time_heuristic (haversine_distance from_lat from_lon to_lat to_lon) ∧
      (calculate_eta from_lat from_lon to_lat to_lon astar api).path_found = true) := by
  refine ⟨?_, ?_, ?_, ?_⟩
  · cases astar with
    | some r => exact Or.inl rfl
    | none =>
      cases api with
      | ok res => exact Or.inr (Or.inl rfl)
      | error msg => exact Or.inr (Or.inr rfl)
  · intro r hr
    subst hr
    exact ⟨rfl, rfl⟩
  · intro res h1 h2
    subst h1
    subst h2
    exact ⟨rfl, rfl, rfl⟩
  · intro msg h1 h2
    subst h1
    subst h2
    exact ⟨rfl, rfl, rfl⟩

end ETA
